import Mathlib

/-!
Shallow embedding of the college-application CSV importer
(src/college_applications.py) and its persistence model (src/core/models.py).

Conventions of the embedding:
* Django model instances become structures; each relation is a list held in a
  `DB` record, together with a fresh-id counter (`nextId`) standing for the
  primary-key sequence.
* A raw CSV cell is an `Option String`: `none` is the pandas NaN produced for
  a missing/empty cell, `some s` is the textual cell content.
* `get_or_create` / `update_or_create` look the object up by their keyword
  filter; zero matches create, one match returns it, several matches raise
  MultipleObjectsReturned, exactly as Django's `get` does.
* `with transaction.atomic()` is modelled by running the block on the current
  state and, when the block raises, returning the state from just before the
  block (rollback).  Work done before the block (the district get_or_create
  at line 116 of the source) is committed regardless.
* `auto_now` / `timezone.now()` timestamps are supplied externally as a `Nat`
  argument `now`, one instant per run.  A queryset `.update(...)` bypasses
  `auto_now`, so the archive sweep touches only `is_archived`/`archived_at`.
-/

deriving instance DecidableEq for Except

namespace Schoolinks

/-! ### Data model (src/core/models.py) -/

structure District where
  id : Nat
  name : String
deriving DecidableEq

structure Student where
  id : Nat
  district_id : Nat
  student_number : String
deriving DecidableEq

structure College where
  id : Nat
  name : String
  ceeb_code : String
deriving DecidableEq

structure CollegeApplication where
  id : Nat
  student_id : Nat
  college_id : Nat
  application_result : Option String
  application_type : Option String
  attending : Option Bool
  is_archived : Bool
  archived_at : Option Nat
  created_on : Nat
  updated_on : Nat
deriving DecidableEq

/-- The persisted state: the four relations plus the primary-key sequence. -/
structure DB where
  districts : List District
  students : List Student
  colleges : List College
  applications : List CollegeApplication
  nextId : Nat
deriving DecidableEq

def DB.empty : DB := { districts := [], students := [], colleges := [], applications := [], nextId := 1 }

/-! ### CSV input -/

/-- One raw CSV data row; `none` models a missing cell (pandas NaN). -/
structure RawRow where
  student_number : Option String
  college_name : Option String
  ceeb_code : Option String
  application_type : Option String
  application_result : Option String
  attending : Option String
deriving DecidableEq

/-- A decoded CSV file: the header as read, plus the data rows. -/
structure Csv where
  columns : List String
  rows : List RawRow
deriving DecidableEq

/-- A normalized row, after the cleaning block (source lines 89-100). -/
structure Row where
  student_number : String
  ceeb_code : String
  college_name : String
  application_result : String
  application_type : String
  attending_parsed : Option Bool
deriving DecidableEq

/-! ### Helpers from src/college_applications.py -/

/-- Python `str.lower()` (ASCII case mapping, all these CSVs need). -/
def py_lower (s : String) : String := ⟨s.data.map Char.toLower⟩

/-- Python `str.strip()`: drop leading and trailing whitespace. -/
def py_strip (s : String) : String :=
  ⟨((s.data.dropWhile Char.isWhitespace).reverse.dropWhile Char.isWhitespace).reverse⟩

/-- `clean_column_names` (source lines 21-25): strip then lower each header. -/
def clean_column_names (cols : List String) : List String :=
  cols.map (fun col => py_lower (py_strip col))

/-- `parse_attending` (source lines 27-41).  The argument is the raw cell:
`none` is the NaN caught by `pd.isna`. -/
def parse_attending (value : Option String) : Option Bool :=
  match value with
  | none => none
  | some v =>
    let s := py_lower (py_strip v)
    if s ∈ ["1", "true", "yes"] then some true
    else if s ∈ ["0", "false", "no"] then some false
    else if s ∈ ["unknown", "", "nan", "none"] then none
    else none

/-- `nan_to_none` (source lines 44-46) applied to an already-parsed
tri-state value: `pd.isna` holds exactly of `None`. -/
def nan_to_none (value : Option Bool) : Option Bool :=
  match value with
  | none => none
  | some b => some b

/-- Python `value or None` on a cleaned string field (source lines 139-140). -/
def none_if_empty (s : String) : Option String :=
  if s = "" then none else some s

/-- The per-row effect of the cleaning block (source lines 89-100):
`student_number` is stringified (NaN prints as "nan") and stripped; the other
fields are NaN-filled to "" then stripped; `application_result` is also
lower-cased; `attending` goes through `parse_attending`. -/
def normalize_row (r : RawRow) : Row :=
  { student_number := (match r.student_number with
      | none => "nan"
      | some s => py_strip s)
    ceeb_code := py_strip (match r.ceeb_code with
      | none => ""
      | some s => s)
    college_name := py_strip (match r.college_name with
      | none => ""
      | some s => s)
    application_result := py_lower (py_strip (match r.application_result with
      | none => ""
      | some s => s))
    application_type := py_strip (match r.application_type with
      | none => ""
      | some s => s)
    attending_parsed := parse_attending r.attending }

/-- The grouping key (source lines 105-108): `ceeb_code` when non-empty,
else the lower-cased `college_name`. -/
def college_key (r : Row) : String :=
  if r.ceeb_code ≠ "" then r.ceeb_code else py_lower r.college_name

/-- The dedup subset (source line 111): `(student_number, college_key)`. -/
def rowKey (r : Row) : String × String :=
  (r.student_number, college_key r)

/-- `df.drop_duplicates(subset=[student_number, college_key], keep="last")`
(source line 111): a row survives exactly when no later row has the same key;
survivors keep their original relative order. -/
def drop_duplicates_keep_last : List Row → List Row
  | [] => []
  | r :: rs =>
    if rs.any (fun x => rowKey x = rowKey r) then drop_duplicates_keep_last rs
    else r :: drop_duplicates_keep_last rs

/-! ### ORM primitives -/

/-- The one persistence-layer error the lookups can raise: Django's
`MultipleObjectsReturned`, raised by `get` (hence by `get_or_create` and
`update_or_create`) when the filter matches more than one object. -/
inductive DbError where
  | multipleObjectsReturned
deriving DecidableEq

/-- Errors an import run can surface: the ValueError of the column check, or
a persistence-layer error. -/
inductive ImportError where
  | valueError (msg : String)
  | dbError (e : DbError)
deriving DecidableEq

/-- `District.objects.get_or_create(name=nm)` (source line 116). -/
def district_get_or_create (db : DB) (nm : String) : Except DbError (District × Bool × DB) :=
  match db.districts.filter (fun d => d.name = nm) with
  | [] =>
    let d : District := { id := db.nextId, name := nm }
    .ok (d, true, { db with districts := db.districts ++ [d], nextId := db.nextId + 1 })
  | [d] => .ok (d, false, db)
  | _ :: _ :: _ => .error .multipleObjectsReturned

/-- `Student.objects.get_or_create(district=district, student_number=sn)`
(source lines 128-131). -/
def student_get_or_create (db : DB) (district : District) (sn : String) :
    Except DbError (Student × Bool × DB) :=
  match db.students.filter (fun s => s.district_id = district.id ∧ s.student_number = sn) with
  | [] =>
    let s : Student := { id := db.nextId, district_id := district.id, student_number := sn }
    .ok (s, true, { db with students := db.students ++ [s], nextId := db.nextId + 1 })
  | [s] => .ok (s, false, db)
  | _ :: _ :: _ => .error .multipleObjectsReturned

/-- `get_or_create_college` (source lines 48-66): prefer `ceeb_code` when
present, else match by `name`; `defaults` are applied only on creation. -/
def get_or_create_college (db : DB) (ceeb cname : String) : Except DbError (College × DB) :=
  let ceeb := py_strip ceeb
  let cname := py_strip cname
  if ceeb ≠ "" then
    match db.colleges.filter (fun c => c.ceeb_code = ceeb) with
    | [] =>
      let c : College := { id := db.nextId, name := cname, ceeb_code := ceeb }
      .ok (c, { db with colleges := db.colleges ++ [c], nextId := db.nextId + 1 })
    | [c] => .ok (c, db)
    | _ :: _ :: _ => .error .multipleObjectsReturned
  else
    match db.colleges.filter (fun c => c.name = cname) with
    | [] =>
      let c : College := { id := db.nextId, name := cname, ceeb_code := "" }
      .ok (c, { db with colleges := db.colleges ++ [c], nextId := db.nextId + 1 })
    | [c] => .ok (c, db)
    | _ :: _ :: _ => .error .multipleObjectsReturned

/-- `CollegeApplication.objects.update_or_create(student=st, college=col,
defaults={...})` (source lines 135-145).  On a match the object is saved,
which also refreshes the `auto_now` field `updated_on`; on a miss a fresh
record is created.  The returned Bool is Django's `created` flag. -/
def application_update_or_create (db : DB) (now : Nat) (st : Student) (col : College)
    (res ty : Option String) (att : Option Bool) : Except DbError (Bool × DB) :=
  match db.applications.filter (fun a => a.student_id = st.id ∧ a.college_id = col.id) with
  | [] =>
    let a : CollegeApplication :=
      { id := db.nextId, student_id := st.id, college_id := col.id,
        application_result := res, application_type := ty, attending := att,
        is_archived := false, archived_at := none,
        created_on := now, updated_on := now }
    .ok (true, { db with applications := db.applications ++ [a], nextId := db.nextId + 1 })
  | [a] =>
    .ok (false, { db with applications := db.applications.map (fun x =>
      if x.id = a.id then
        { x with application_result := res, application_type := ty, attending := att,
                 is_archived := false, archived_at := none, updated_on := now }
      else x) })
  | _ :: _ :: _ => .error .multipleObjectsReturned

/-! ### The import pipeline (source lines 69-178) -/

/-- Summary dictionary returned by the import (source lines 173-178). -/
structure Summary where
  total_processed : Nat
  created : Nat
  updated : Nat
  archived : Nat
deriving DecidableEq

/-- The loop state of the row loop (source lines 118-151): the working
database, the `existing_applications` touched set, and the two counters. -/
structure LoopState where
  db : DB
  touched : List (Nat × Nat)
  created : Nat
  updated : Nat
deriving DecidableEq

/-- One iteration of the row loop (source lines 126-151): resolve the
student, resolve the college, upsert the application; any raised
persistence error propagates. -/
def process_row (now : Nat) (district : District) (st : LoopState) (row : Row) :
    Except DbError LoopState :=
  match student_get_or_create st.db district row.student_number with
  | .error e => .error e
  | .ok (student, _, db1) =>
    match get_or_create_college db1 row.ceeb_code row.college_name with
    | .error e => .error e
    | .ok (college, db2) =>
      match application_update_or_create db2 now student college
          (none_if_empty row.application_result) (none_if_empty row.application_type)
          (nan_to_none row.attending_parsed) with
      | .error e => .error e
      | .ok (created_new, db3) =>
        .ok { db := db3,
              touched := st.touched ++ [(student.id, college.id)],
              created := if created_new then st.created + 1 else st.created,
              updated := if created_new then st.updated else st.updated + 1 }

/-- The whole row loop, first raised error aborts. -/
def run_rows (now : Nat) (district : District) (st : LoopState) :
    List Row → Except DbError LoopState
  | [] => .ok st
  | row :: rows =>
    match process_row now district st row with
    | .error e => .error e
    | .ok st2 => run_rows now district st2 rows

/-- Does this application belong to a student of the given district?
Models the join in `filter(student__district = district)` (source line 156). -/
def app_in_district (db : DB) (district : District) (a : CollegeApplication) : Bool :=
  db.students.any (fun s => s.id = a.student_id ∧ s.district_id = district.id)

/-- The archive sweep (source lines 154-170): collect the ids of every
non-archived application of the district whose pair was not touched, then
mark them archived with the single sweep timestamp.  The queryset `.update`
bypasses `auto_now`, so `updated_on` is left alone.  Returns the number of
rows updated (the `archived` counter). -/
def archive_sweep (now : Nat) (district : District) (touched : List (Nat × Nat))
    (db : DB) : Nat × DB :=
  let qs := db.applications.filter (fun a => !a.is_archived && app_in_district db district a)
  let to_archive_ids := (qs.filter (fun a => (a.student_id, a.college_id) ∉ touched)).map (fun a => a.id)
  if to_archive_ids ≠ [] then
    ((db.applications.filter (fun a => a.id ∈ to_archive_ids)).length,
     { db with applications := db.applications.map (fun a =>
        if a.id ∈ to_archive_ids then { a with is_archived := true, archived_at := some now }
        else a) })
  else (0, db)

/-- The required-column set (source lines 75-82).  Python iterates this as a
set, in an unspecified order; the order below is the literal's order.  Every
property proved about the column check is order-independent. -/
def required_columns : List String :=
  ["student_number", "college_name", "ceeb_code", "application_type", "application_result", "attending"]

/-- An apostrophe, as Python's list repr puts around each string. -/
def sq : String := String.singleton (Char.ofNat 39)

def py_quoted (s : String) : String := sq ++ s ++ sq

/-- Python's repr of a list of (escape-free) strings, element part. -/
def py_str_list_inner : List String → String
  | [] => ""
  | [x] => py_quoted x
  | x :: y :: xs => py_quoted x ++ ", " ++ py_str_list_inner (y :: xs)

/-- Python's repr of a list of (escape-free) strings. -/
def py_str_list (xs : List String) : String := "[" ++ py_str_list_inner xs ++ "]"

/-- The ValueError message of the column check (source line 86). -/
def missing_columns_message (missing found : List String) : String :=
  "CSV missing required columns: " ++ py_str_list missing ++ ". Found columns: " ++ py_str_list found

/-- The import after the column check passed (source lines 88-178): clean
the rows, dedup keep-last, get-or-create the district (source line 116,
before the atomic block, hence committed even when the block fails), then
run the row loop and the archive sweep inside `transaction.atomic()`: when
the block raises, its writes are rolled back to `db1`, the state from just
before the block. -/
def import_core (now : Nat) (csv : Csv) (db : DB) : Except ImportError Summary × DB :=
  match district_get_or_create db "SchooLinks" with
  | .error e => (.error (.dbError e), db)
  | .ok (district, _, db1) =>
    match run_rows now district { db := db1, touched := [], created := 0, updated := 0 }
        (drop_duplicates_keep_last (csv.rows.map normalize_row)) with
    | .error e => (.error (.dbError e), db1)
    | .ok st =>
      (.ok { total_processed := (drop_duplicates_keep_last (csv.rows.map normalize_row)).length,
             created := st.created, updated := st.updated,
             archived := (archive_sweep now district st.touched st.db).1 },
       (archive_sweep now district st.touched st.db).2)

/-- `import_applications_from_csv` (source lines 69-178).  `now` is the
run's clock reading; the file is already decoded into header + raw rows.
Returns the outcome together with the database as the run leaves it: on a
ValueError nothing was touched; on a persistence error inside the atomic
block the block's writes are rolled back, but the district get_or_create at
source line 116 happened before the block and stays committed. -/
def import_applications_from_csv (now : Nat) (csv : Csv) (db : DB) :
    Except ImportError Summary × DB :=
  if required_columns.filter (fun c => c ∉ clean_column_names csv.columns) ≠ [] then
    (.error (.valueError (missing_columns_message
        (required_columns.filter (fun c => c ∉ clean_column_names csv.columns))
        (clean_column_names csv.columns))), db)
  else
    import_core now csv db

/-- Well-formedness that the real database guarantees through its primary
keys: ids are unique per relation and below the id sequence. -/
def DB.WF (db : DB) : Prop :=
  (db.districts.map (fun d => d.id)).Nodup ∧ (∀ d ∈ db.districts, d.id < db.nextId)
  ∧ (db.students.map (fun s => s.id)).Nodup ∧ (∀ s ∈ db.students, s.id < db.nextId)
  ∧ (db.colleges.map (fun c => c.id)).Nodup ∧ (∀ c ∈ db.colleges, c.id < db.nextId)
  ∧ (db.applications.map (fun a => a.id)).Nodup ∧ (∀ a ∈ db.applications, a.id < db.nextId)

instance (db : DB) : Decidable db.WF := by
  unfold DB.WF; infer_instance

/-! ### Concrete fixtures used by witnesses and counterexamples -/

def dW : District := { id := 1, name := "SchooLinks" }

def stW : Student := { id := 2, district_id := 1, student_number := "974228" }

def colW : College := { id := 3, name := "Sacred Heart University", ceeb_code := "3780" }

/-- An archived application for the (stW, colW) pair. -/
def appW : CollegeApplication :=
  { id := 4, student_id := 2, college_id := 3,
    application_result := some "unknown", application_type := some "Early Action",
    attending := none, is_archived := true, archived_at := some 1,
    created_on := 0, updated_on := 0 }

def dbW : DB :=
  { districts := [dW], students := [stW], colleges := [colW],
    applications := [appW], nextId := 5 }

def stW2 : Student := { id := 6, district_id := 1, student_number := "975900" }

/-- A live application for the (stW2, colW) pair. -/
def appW2 : CollegeApplication :=
  { id := 7, student_id := 6, college_id := 3,
    application_result := some "accepted", application_type := none,
    attending := some true, is_archived := false, archived_at := none,
    created_on := 0, updated_on := 0 }

/-- A live application for the (stW, colW) pair. -/
def appW3 : CollegeApplication :=
  { id := 4, student_id := 2, college_id := 3,
    application_result := some "accepted", application_type := some "Rolling Decision",
    attending := some false, is_archived := false, archived_at := none,
    created_on := 0, updated_on := 0 }

def dbW7 : DB :=
  { districts := [dW], students := [stW, stW2], colleges := [colW],
    applications := [appW3, appW2], nextId := 8 }

/-- A database holding only the import district. -/
def dbD : DB :=
  { districts := [dW], students := [], colleges := [], applications := [], nextId := 2 }

/-- A normalized row with empty result and a name-keyed college. -/
def rowL : Row :=
  { student_number := "996713", ceeb_code := "", college_name := "Lasell University",
    application_result := "", application_type := "Rolling Decision",
    attending_parsed := some false }

/-- The application created by processing `rowL` over `dbD` at clock 7. -/
def appL : CollegeApplication :=
  { id := 4, student_id := 2, college_id := 3,
    application_result := none, application_type := some "Rolling Decision",
    attending := some false, is_archived := false, archived_at := none,
    created_on := 7, updated_on := 7 }

/-- Raw CSV rows: same student, empty ceeb, names differing only in case. -/
def rawQ1 : RawRow :=
  { student_number := some "974195", college_name := some "Quinnipiac University",
    ceeb_code := some "", application_type := some "Rolling Decision",
    application_result := some "", attending := some "unknown" }

def rawQ2 : RawRow :=
  { student_number := some "974195", college_name := some "quinnipiac university",
    ceeb_code := some "", application_type := some "Rolling Decision",
    application_result := some "accepted", attending := some "1" }

/-- Raw CSV rows: same student and (empty) ceeb code, but college names that
differ beyond letter case. -/
def rawA : RawRow :=
  { student_number := some "1", college_name := some "Alpha College",
    ceeb_code := some "", application_type := some "Rolling",
    application_result := some "waitlisted", attending := some "0" }

def rawB : RawRow :=
  { student_number := some "1", college_name := some "Beta College",
    ceeb_code := some "", application_type := some "Rolling",
    application_result := some "accepted", attending := some "1" }

/-- A database holding two distinct colleges with the same name and no
districts: a name-keyed lookup on it raises MultipleObjectsReturned. -/
def dbX : DB :=
  { districts := [], students := [],
    colleges := [{ id := 1, name := "X", ceeb_code := "" },
                 { id := 2, name := "X", ceeb_code := "" }],
    applications := [], nextId := 3 }

/-- A raw row resolving its college by the ambiguous name "X". -/
def rawX : RawRow :=
  { student_number := some "5", college_name := some "X",
    ceeb_code := some "", application_type := some "",
    application_result := some "", attending := some "" }

/-- Raw CSV rows: duplicate (student, ceeb) pair with differing outcomes. -/
def rawS1 : RawRow :=
  { student_number := some "974472", college_name := some "Suffolk University",
    ceeb_code := some "3771", application_type := some "Early Action",
    application_result := some "denied", attending := some "0" }

def rawS2 : RawRow :=
  { student_number := some "974472", college_name := some "Suffolk University",
    ceeb_code := some "3771", application_type := some "Early Action",
    application_result := some "accepted", attending := some "1" }

/-- One-row file for the double-import experiment. -/
def csvS : Csv := { columns := required_columns, rows := [rawS2] }

/-- The application persisted by the first run of `csvS` at clock 0. -/
def appS : CollegeApplication :=
  { id := 4, student_id := 2, college_id := 3,
    application_result := some "accepted", application_type := some "Early Action",
    attending := some true, is_archived := false, archived_at := none,
    created_on := 0, updated_on := 0 }

/-- Database after the first run of `csvS` at clock 0 from `DB.empty`. -/
def dbS1 : DB :=
  { districts := [dW],
    students := [{ id := 2, district_id := 1, student_number := "974472" }],
    colleges := [{ id := 3, name := "Suffolk University", ceeb_code := "3771" }],
    applications := [appS],
    nextId := 5 }

/-- Database after the second run of `csvS` at clock 1: only `updated_on` moved. -/
def dbS2 : DB :=
  { dbS1 with applications := [{ appS with updated_on := 1 }] }

def sS1 : Summary := { total_processed := 1, created := 1, updated := 0, archived := 0 }

def sS2 : Summary := { total_processed := 1, created := 0, updated := 1, archived := 0 }

/-- Proof invariant for replaying a loop over the final database `db1` of a
previous run: the replay creates nothing, counts only updates, touches the
same pairs, and its application table is `db1`'s with, for each touched
pair, the fields of the first run's mid-state and a fresh `updated_on`. -/
def run2_sim (db1 : DB) (now2 : Nat) (A B : LoopState) : Prop :=
  B.db.districts = db1.districts
  ∧ B.db.students = db1.students
  ∧ B.db.colleges = db1.colleges
  ∧ B.db.nextId = db1.nextId
  ∧ B.touched = A.touched
  ∧ B.created = 0
  ∧ B.updated = A.created + A.updated
  ∧ A.db.WF
  ∧ ∃ f : CollegeApplication → CollegeApplication,
      B.db.applications = db1.applications.map f
      ∧ (∀ x, (f x).id = x.id ∧ (f x).student_id = x.student_id
          ∧ (f x).college_id = x.college_id ∧ (f x).created_on = x.created_on)
      ∧ (∀ x ∈ db1.applications,
          (x.student_id, x.college_id) ∉ A.touched → f x = x)
      ∧ (∀ x ∈ db1.applications, (x.student_id, x.college_id) ∈ A.touched →
          ∃ a, A.db.applications.filter
              (fun y => y.student_id = x.student_id ∧ y.college_id = x.college_id) = [a]
            ∧ f x = { x with application_result := a.application_result,
                             application_type := a.application_type,
                             attending := a.attending,
                             is_archived := false, archived_at := none,
                             updated_on := now2 })

/-! ### General helper lemmas -/

theorem infix_append_right {α : Type} {l m : List α} (h : l <:+: m) (n : List α) :
    l <:+: m ++ n := by
  obtain ⟨s, t, rfl⟩ := h
  exact ⟨s, t ++ n, by simp⟩

theorem infix_append_left {α : Type} {l m : List α} (h : l <:+: m) (n : List α) :
    l <:+: n ++ m := by
  obtain ⟨s, t, rfl⟩ := h
  exact ⟨n ++ s, t, by simp⟩

/-- A member of the list is a substring of its Python repr (element part). -/
theorem mem_infix_py_str_list_inner {s : String} {xs : List String} (h : s ∈ xs) :
    s.data <:+: (py_str_list_inner xs).data := by
  induction xs with
  | nil => cases h
  | cons x xs ih =>
    match xs, h with
    | [], h =>
      have hx : s = x := by simpa using h
      subst hx
      exact ⟨sq.data, sq.data, by simp [py_str_list_inner, py_quoted, String.data_append]⟩
    | y :: ys, h =>
      rcases List.mem_cons.mp h with hx | hmem
      · subst hx
        have h1 : s.data <:+: (py_quoted s).data :=
          ⟨sq.data, sq.data, by simp [py_quoted, String.data_append]⟩
        have : s.data <:+: (py_quoted s ++ ", ").data := by
          rw [String.data_append]; exact infix_append_right h1 _
        simpa [py_str_list_inner, String.data_append] using infix_append_right this _
      · have h1 := ih hmem
        simpa [py_str_list_inner, String.data_append] using
          infix_append_left (infix_append_left h1 (", ").data) (py_quoted x).data

/-- A member of the list is a substring of its Python repr. -/
theorem mem_infix_py_str_list {s : String} {xs : List String} (h : s ∈ xs) :
    s.data <:+: (py_str_list xs).data := by
  have h1 := mem_infix_py_str_list_inner h
  simpa [py_str_list, String.data_append] using
    infix_append_right (infix_append_left h1 ("[").data) ("]").data

theorem head_dropWhile_false {α : Type} (p : α → Bool) (l : List α) :
    ∀ a, (l.dropWhile p).head? = some a → p a = false := by
  induction l with
  | nil => intro a h; cases h
  | cons x t ih =>
    intro a h
    rw [List.dropWhile_cons] at h
    by_cases hx : p x
    · rw [if_pos hx] at h
      exact ih a h
    · rw [if_neg hx] at h
      have hxa : x = a := by simpa using h
      subst hxa
      simpa using hx

theorem dropWhile_eq_self_of_head {α : Type} {p : α → Bool} {l : List α}
    (h : ∀ a, l.head? = some a → p a = false) : l.dropWhile p = l := by
  cases l with
  | nil => rfl
  | cons x t => rw [List.dropWhile_cons, if_neg (by simp [h x rfl])]

/-- Python strip is idempotent. -/
theorem py_strip_idem (s : String) : py_strip (py_strip s) = py_strip s := by
  unfold py_strip
  congr 1
  set w := Char.isWhitespace
  set A := s.data.dropWhile w with hA
  set B := A.reverse.dropWhile w with hB
  have h1 : B.reverse.dropWhile w = B.reverse := by
    apply dropWhile_eq_self_of_head
    intro a ha
    rw [List.head?_reverse] at ha
    obtain ⟨t, ht⟩ :=
      (List.dropWhile_suffix w : List.dropWhile w A.reverse <:+ A.reverse)
    have hlast : A.reverse.getLast? = some a := by
      rw [← ht, List.getLast?_append, ha]
      rfl
    rw [List.getLast?_reverse] at hlast
    exact head_dropWhile_false w s.data a hlast
  rw [h1, List.reverse_reverse, hB, List.dropWhile_idempotent]

/-- The cleaned ceeb code is already stripped. -/
theorem normalize_ceeb_strip (r : RawRow) :
    py_strip (normalize_row r).ceeb_code = (normalize_row r).ceeb_code := by
  unfold normalize_row
  exact py_strip_idem _

/-- The cleaned college name is already stripped. -/
theorem normalize_cname_strip (r : RawRow) :
    py_strip (normalize_row r).college_name = (normalize_row r).college_name := by
  unfold normalize_row
  exact py_strip_idem _

/-! ### The dedup step -/

/-- Surviving rows keep their original relative order. -/
theorem drop_duplicates_sublist (l : List Row) :
    (drop_duplicates_keep_last l).Sublist l := by
  induction l with
  | nil => simp [drop_duplicates_keep_last]
  | cons r rs ih =>
    unfold drop_duplicates_keep_last
    split
    · exact ih.cons r
    · exact ih.cons₂ r

/-- Per key, the dedup output holds exactly the last input row of the key. -/
theorem drop_duplicates_filter_key (l : List Row) (k : String × String) :
    (drop_duplicates_keep_last l).filter (fun r => rowKey r = k)
      = ((l.filter (fun r => rowKey r = k)).getLast?).toList := by
  induction l with
  | nil => rfl
  | cons r rs ih =>
    unfold drop_duplicates_keep_last
    by_cases hdup : rs.any (fun x => rowKey x = rowKey r)
    · rw [if_pos hdup]
      by_cases hk : rowKey r = k
      · rw [List.filter_cons_of_pos (by simp [hk])]
        have hne : rs.filter (fun x => rowKey x = k) ≠ [] := by
          obtain ⟨x, hx, hxk⟩ := List.any_eq_true.mp hdup
          intro hnil
          have hmem : x ∈ rs.filter (fun x => rowKey x = k) := by
            refine List.mem_filter.mpr ⟨hx, ?_⟩
            simp only [decide_eq_true_eq] at hxk ⊢
            rw [hxk, hk]
          rw [hnil] at hmem
          cases hmem
        rw [ih]
        cases hfe : rs.filter (fun x => rowKey x = k) with
        | nil => exact absurd hfe hne
        | cons y ys => rw [List.getLast?_cons_cons]
      · rw [List.filter_cons_of_neg (by simp [hk])]
        exact ih
    · rw [if_neg hdup]
      by_cases hk : rowKey r = k
      · rw [List.filter_cons_of_pos (by simp [hk]), List.filter_cons_of_pos (by simp [hk])]
        have hfil : rs.filter (fun x => rowKey x = k) = [] := by
          rw [List.filter_eq_nil_iff]
          intro x hx
          simp only [decide_eq_true_eq]
          intro hxe
          exact hdup (List.any_eq_true.mpr ⟨x, hx, by simp [hxe, hk]⟩)
        have hfil2 : (drop_duplicates_keep_last rs).filter (fun x => rowKey x = k) = [] :=
          List.sublist_nil.mp
            (hfil ▸ (drop_duplicates_sublist rs).filter (fun x => rowKey x = k))
        rw [hfil, hfil2]
        rfl
      · rw [List.filter_cons_of_neg (by simp [hk]), List.filter_cons_of_neg (by simp [hk])]
        exact ih

/-! ### Inversion lemmas for the ORM primitives -/

theorem map_ite_id_of_ne {α : Type} {q : α → Prop} [DecidablePred q] {f : α → α}
    {l : List α} (h : ∀ x ∈ l, ¬ q x) :
    l.map (fun x => if q x then f x else x) = l := by
  induction l with
  | nil => rfl
  | cons x xs ih =>
    simp only [List.map_cons, if_neg (h x (by simp))]
    rw [ih (fun y hy => h y (by simp [hy]))]

theorem map_ite_split {α : Type} {q : α → Prop} [DecidablePred q] {f : α → α}
    {pre post : List α} {a : α}
    (hpre : ∀ x ∈ pre, ¬ q x) (hpost : ∀ x ∈ post, ¬ q x) (ha : q a) :
    (pre ++ a :: post).map (fun x => if q x then f x else x) = pre ++ f a :: post := by
  simp only [List.map_append, List.map_cons, if_pos ha]
  rw [map_ite_id_of_ne hpre, map_ite_id_of_ne hpost]

theorem filter_eq_singleton_decomp {α : Type} {p : α → Bool} {l : List α} {a : α}
    (h : l.filter p = [a]) :
    ∃ s t, l = s ++ a :: t ∧ (∀ x ∈ s, p x = false) ∧ (∀ x ∈ t, p x = false) ∧ p a = true := by
  induction l with
  | nil => simp at h
  | cons x xs ih =>
    by_cases hx : p x
    · rw [List.filter_cons_of_pos hx] at h
      obtain ⟨rfl, h2⟩ := List.cons.inj h
      refine ⟨[], xs, rfl, by simp, ?_, hx⟩
      intro y hy
      by_cases hpy : p y
      · exfalso
        have : y ∈ xs.filter p := List.mem_filter.mpr ⟨hy, hpy⟩
        rw [h2] at this
        cases this
      · simpa using hpy
    · rw [List.filter_cons_of_neg hx] at h
      obtain ⟨s, t, rfl, hs, ht, hpa⟩ := ih h
      exact ⟨x :: s, t, rfl, by
        intro y hy
        rcases List.mem_cons.mp hy with rfl | hy
        · simpa using hx
        · exact hs y hy, ht, hpa⟩

theorem district_goc_cases {db : DB} {nm : String} {d : District} {b : Bool} {db2 : DB}
    (h : district_get_or_create db nm = .ok (d, b, db2)) :
    (b = false ∧ db2 = db ∧ db.districts.filter (fun x => x.name = nm) = [d])
  ∨ (b = true ∧ d = { id := db.nextId, name := nm }
      ∧ db2 = { db with districts := db.districts ++ [d], nextId := db.nextId + 1 }
      ∧ db.districts.filter (fun x => x.name = nm) = []) := by
  unfold district_get_or_create at h
  split at h
  · right
    simp only [Except.ok.injEq, Prod.mk.injEq] at h
    obtain ⟨h1, h2, h3⟩ := h
    subst h1; subst h2
    exact ⟨rfl, rfl, h3.symm, by assumption⟩
  · left
    simp only [Except.ok.injEq, Prod.mk.injEq] at h
    obtain ⟨h1, h2, h3⟩ := h
    subst h1; subst h2; subst h3
    exact ⟨rfl, rfl, by assumption⟩
  · cases h

theorem student_goc_cases {db : DB} {district : District} {sn : String} {s : Student}
    {b : Bool} {db2 : DB}
    (h : student_get_or_create db district sn = .ok (s, b, db2)) :
    (b = false ∧ db2 = db
      ∧ db.students.filter (fun x => x.district_id = district.id ∧ x.student_number = sn) = [s])
  ∨ (b = true ∧ s = { id := db.nextId, district_id := district.id, student_number := sn }
      ∧ db2 = { db with students := db.students ++ [s], nextId := db.nextId + 1 }
      ∧ db.students.filter (fun x => x.district_id = district.id ∧ x.student_number = sn) = []) := by
  unfold student_get_or_create at h
  split at h
  · right
    simp only [Except.ok.injEq, Prod.mk.injEq] at h
    obtain ⟨h1, h2, h3⟩ := h
    subst h1; subst h2
    exact ⟨rfl, rfl, h3.symm, by assumption⟩
  · left
    simp only [Except.ok.injEq, Prod.mk.injEq] at h
    obtain ⟨h1, h2, h3⟩ := h
    subst h1; subst h2; subst h3
    exact ⟨rfl, rfl, by assumption⟩
  · cases h

theorem college_goc_cases {db : DB} {ceeb cname : String} {c : College} {db2 : DB}
    (h : get_or_create_college db ceeb cname = .ok (c, db2)) :
    (py_strip ceeb ≠ "" ∧ db2 = db
      ∧ db.colleges.filter (fun x => x.ceeb_code = py_strip ceeb) = [c])
  ∨ (py_strip ceeb ≠ ""
      ∧ c = { id := db.nextId, name := py_strip cname, ceeb_code := py_strip ceeb }
      ∧ db2 = { db with colleges := db.colleges ++ [c], nextId := db.nextId + 1 }
      ∧ db.colleges.filter (fun x => x.ceeb_code = py_strip ceeb) = [])
  ∨ (py_strip ceeb = "" ∧ db2 = db
      ∧ db.colleges.filter (fun x => x.name = py_strip cname) = [c])
  ∨ (py_strip ceeb = ""
      ∧ c = { id := db.nextId, name := py_strip cname, ceeb_code := "" }
      ∧ db2 = { db with colleges := db.colleges ++ [c], nextId := db.nextId + 1 }
      ∧ db.colleges.filter (fun x => x.name = py_strip cname) = []) := by
  unfold get_or_create_college at h
  by_cases hne : py_strip ceeb ≠ ""
  · rw [if_pos hne] at h
    split at h
    · right; left
      simp only [Except.ok.injEq, Prod.mk.injEq] at h
      obtain ⟨h1, h2⟩ := h
      subst h1
      exact ⟨hne, rfl, h2.symm, by assumption⟩
    · left
      simp only [Except.ok.injEq, Prod.mk.injEq] at h
      obtain ⟨h1, h2⟩ := h
      subst h1; subst h2
      exact ⟨hne, rfl, by assumption⟩
    · cases h
  · rw [if_neg hne] at h
    rw [not_not] at hne
    split at h
    · right; right; right
      simp only [Except.ok.injEq, Prod.mk.injEq] at h
      obtain ⟨h1, h2⟩ := h
      subst h1
      exact ⟨hne, rfl, h2.symm, by assumption⟩
    · right; right; left
      simp only [Except.ok.injEq, Prod.mk.injEq] at h
      obtain ⟨h1, h2⟩ := h
      subst h1; subst h2
      exact ⟨hne, rfl, by assumption⟩
    · cases h

theorem app_uoc_cases {db : DB} {now : Nat} {st : Student} {col : College}
    {res ty : Option String} {att : Option Bool} {b : Bool} {db2 : DB}
    (h : application_update_or_create db now st col res ty att = .ok (b, db2)) :
    (b = true
      ∧ db2 = { db with applications := db.applications ++
          [{ id := db.nextId, student_id := st.id, college_id := col.id,
             application_result := res, application_type := ty, attending := att,
             is_archived := false, archived_at := none,
             created_on := now, updated_on := now }], nextId := db.nextId + 1 }
      ∧ db.applications.filter (fun x => x.student_id = st.id ∧ x.college_id = col.id) = [])
  ∨ (b = false ∧ ∃ a,
      db.applications.filter (fun x => x.student_id = st.id ∧ x.college_id = col.id) = [a]
      ∧ db2 = { db with applications := db.applications.map (fun x =>
          if x.id = a.id then
            { x with application_result := res, application_type := ty, attending := att,
                     is_archived := false, archived_at := none, updated_on := now }
          else x) }) := by
  unfold application_update_or_create at h
  split at h
  · left
    simp only [Except.ok.injEq, Prod.mk.injEq] at h
    obtain ⟨h1, h2⟩ := h
    subst h1
    exact ⟨rfl, h2.symm, by assumption⟩
  · right
    simp only [Except.ok.injEq, Prod.mk.injEq] at h
    obtain ⟨h1, h2⟩ := h
    subst h1
    exact ⟨rfl, _, by assumption, h2.symm⟩
  · cases h

theorem process_row_ok_elim {now : Nat} {district : District} {st : LoopState} {row : Row}
    {st2 : LoopState} (h : process_row now district st row = .ok st2) :
    ∃ s b1 db1 c db2 bnew db3,
      student_get_or_create st.db district row.student_number = .ok (s, b1, db1)
      ∧ get_or_create_college db1 row.ceeb_code row.college_name = .ok (c, db2)
      ∧ application_update_or_create db2 now s c (none_if_empty row.application_result)
          (none_if_empty row.application_type) (nan_to_none row.attending_parsed) = .ok (bnew, db3)
      ∧ st2 = { db := db3, touched := st.touched ++ [(s.id, c.id)],
                created := if bnew then st.created + 1 else st.created,
                updated := if bnew then st.updated else st.updated + 1 } := by
  unfold process_row at h
  split at h
  · cases h
  · rename_i s b1 db1 heq1
    split at h
    · cases h
    · rename_i c db2 heq2
      split at h
      · cases h
      · rename_i bnew db3 heq3
        exact ⟨s, b1, db1, c, db2, bnew, db3, heq1, heq2, heq3, (Except.ok.inj h).symm⟩

theorem process_row_eq {now : Nat} {district : District} {st : LoopState} {row : Row}
    {s : Student} {b1 : Bool} {db1 : DB} {c : College} {db2 : DB} {bnew : Bool} {db3 : DB}
    (hs : student_get_or_create st.db district row.student_number = .ok (s, b1, db1))
    (hc : get_or_create_college db1 row.ceeb_code row.college_name = .ok (c, db2))
    (hu : application_update_or_create db2 now s c (none_if_empty row.application_result)
        (none_if_empty row.application_type) (nan_to_none row.attending_parsed) = .ok (bnew, db3)) :
    process_row now district st row =
      .ok { db := db3, touched := st.touched ++ [(s.id, c.id)],
            created := if bnew then st.created + 1 else st.created,
            updated := if bnew then st.updated else st.updated + 1 } := by
  unfold process_row
  split
  · rename_i e heq
    rw [heq] at hs; cases hs
  · rename_i s9 b9 db9 heq
    rw [heq] at hs
    simp only [Except.ok.injEq, Prod.mk.injEq] at hs
    obtain ⟨rfl, rfl, rfl⟩ := hs
    split
    · rename_i e heq2
      rw [heq2] at hc; cases hc
    · rename_i c9 db9 heq2
      rw [heq2] at hc
      simp only [Except.ok.injEq, Prod.mk.injEq] at hc
      obtain ⟨rfl, rfl⟩ := hc
      split
      · rename_i e heq3
        rw [heq3] at hu; cases hu
      · rename_i b9 db9 heq3
        rw [heq3] at hu
        simp only [Except.ok.injEq, Prod.mk.injEq] at hu
        obtain ⟨rfl, rfl⟩ := hu
        rfl

theorem run_rows_nil {now : Nat} {district : District} {st : LoopState} :
    run_rows now district st [] = .ok st := rfl

theorem run_rows_cons_ok {now : Nat} {district : District} {st : LoopState} {row : Row}
    {rows : List Row} {st2 : LoopState} (h : process_row now district st row = .ok st2) :
    run_rows now district st (row :: rows) = run_rows now district st2 rows := by
  conv_lhs => rw [run_rows]
  split
  · rename_i e heq
    rw [heq] at h; cases h
  · rename_i st9 heq
    rw [heq] at h
    rw [Except.ok.inj h]

theorem run_rows_cons_elim {now : Nat} {district : District} {st : LoopState} {row : Row}
    {rows : List Row} {stf : LoopState}
    (h : run_rows now district st (row :: rows) = .ok stf) :
    ∃ st2, process_row now district st row = .ok st2
      ∧ run_rows now district st2 rows = .ok stf := by
  unfold run_rows at h
  split at h
  · cases h
  · rename_i st9 heq
    exact ⟨st9, heq, h⟩

theorem import_core_eq_ok {now : Nat} {csv : Csv} {db : DB} {d : District} {b1 : Bool}
    {db1 : DB} {st : LoopState}
    (hd : district_get_or_create db "SchooLinks" = .ok (d, b1, db1))
    (hr : run_rows now d { db := db1, touched := [], created := 0, updated := 0 }
        (drop_duplicates_keep_last (csv.rows.map normalize_row)) = .ok st) :
    import_core now csv db =
      (.ok { total_processed := (drop_duplicates_keep_last (csv.rows.map normalize_row)).length,
             created := st.created, updated := st.updated,
             archived := (archive_sweep now d st.touched st.db).1 },
       (archive_sweep now d st.touched st.db).2) := by
  unfold import_core
  split
  · rename_i e heq
    rw [heq] at hd; cases hd
  · rename_i d9 b9 db9 heq
    rw [heq] at hd
    simp only [Except.ok.injEq, Prod.mk.injEq] at hd
    obtain ⟨rfl, rfl, rfl⟩ := hd
    split
    · rename_i e heq2
      rw [heq2] at hr; cases hr
    · rename_i st9 heq2
      rw [heq2] at hr
      rw [Except.ok.inj hr]

/-- When every required column is present, the import is its core. -/
theorem import_eq_core {now : Nat} {csv : Csv} {db : DB}
    (h : required_columns.filter (fun c => c ∉ clean_column_names csv.columns) = []) :
    import_applications_from_csv now csv db = import_core now csv db := by
  unfold import_applications_from_csv
  rw [h]
  simp

/-- Frame: resolving a student never touches the other relations. -/
theorem student_goc_frame {db : DB} {district : District} {sn : String} {s : Student}
    {b : Bool} {db2 : DB} (h : student_get_or_create db district sn = .ok (s, b, db2)) :
    db2.districts = db.districts ∧ db2.colleges = db.colleges
      ∧ db2.applications = db.applications := by
  rcases student_goc_cases h with ⟨_, rfl, _⟩ | ⟨_, _, rfl, _⟩ <;> exact ⟨rfl, rfl, rfl⟩

/-- Frame: resolving a college never touches the other relations. -/
theorem college_goc_frame {db : DB} {ceeb cname : String} {c : College} {db2 : DB}
    (h : get_or_create_college db ceeb cname = .ok (c, db2)) :
    db2.districts = db.districts ∧ db2.students = db.students
      ∧ db2.applications = db.applications := by
  rcases college_goc_cases h with ⟨_, rfl, _⟩ | ⟨_, _, rfl, _⟩ | ⟨_, rfl, _⟩ | ⟨_, _, rfl, _⟩ <;>
    exact ⟨rfl, rfl, rfl⟩

/-- Frame: the application upsert never touches the other relations. -/
theorem app_uoc_frame {db : DB} {now : Nat} {st : Student} {col : College}
    {res ty : Option String} {att : Option Bool} {b : Bool} {db2 : DB}
    (h : application_update_or_create db now st col res ty att = .ok (b, db2)) :
    db2.districts = db.districts ∧ db2.students = db.students
      ∧ db2.colleges = db.colleges := by
  rcases app_uoc_cases h with ⟨_, rfl, _⟩ | ⟨_, _, _, rfl⟩ <;> exact ⟨rfl, rfl, rfl⟩

/-! ### C4: the tri-state attending parser -/

/-- C4: for every raw attending cell, `parse_attending` (trimming, then
comparing case-insensitively) returns `some true` on "1"/"true"/"yes",
`some false` on "0"/"false"/"no", `none` on a missing cell and on
"unknown"/""/"nan"/"none", and `none` on every other value; being a total
function, it never raises. -/
theorem parse_attending_tristate :
    parse_attending none = none
  ∧ (∀ s : String, py_lower (py_strip s) ∈ ["1", "true", "yes"] → parse_attending (some s) = some true)
  ∧ (∀ s : String, py_lower (py_strip s) ∈ ["0", "false", "no"] → parse_attending (some s) = some false)
  ∧ (∀ s : String, py_lower (py_strip s) ∈ ["unknown", "", "nan", "none"] → parse_attending (some s) = none)
  ∧ (∀ s : String,
      py_lower (py_strip s) ∉ ["1", "true", "yes"] → py_lower (py_strip s) ∉ ["0", "false", "no"] →
      parse_attending (some s) = none) := by
  refine ⟨rfl, ?_, ?_, ?_, ?_⟩
  · intro s h
    simp only [parse_attending, if_pos h]
  · intro s h
    have h1 : py_lower (py_strip s) ∉ ["1", "true", "yes"] := by
      simp only [List.mem_cons, List.not_mem_nil, or_false] at h
      rcases h with h | h | h <;> rw [h] <;> decide
    simp only [parse_attending, if_neg h1, if_pos h]
  · intro s h
    have h1 : py_lower (py_strip s) ∉ ["1", "true", "yes"] := by
      simp only [List.mem_cons, List.not_mem_nil, or_false] at h
      rcases h with h | h | h | h <;> rw [h] <;> decide
    have h2 : py_lower (py_strip s) ∉ ["0", "false", "no"] := by
      simp only [List.mem_cons, List.not_mem_nil, or_false] at h
      rcases h with h | h | h | h <;> rw [h] <;> decide
    simp only [parse_attending, if_neg h1, if_neg h2, if_pos h]
  · intro s h1 h2
    simp only [parse_attending, if_neg h1, if_neg h2]
    split <;> rfl

/-- Witness for C4 at concrete inputs from each category. -/
theorem parse_attending_tristate_witness :
    parse_attending (some " YES ") = some true
  ∧ parse_attending (some "0") = some false
  ∧ parse_attending (some "Unknown") = none
  ∧ parse_attending (some "maybe??") = none :=
  ⟨parse_attending_tristate.2.1 " YES " (by decide),
   parse_attending_tristate.2.2.1 "0" (by decide),
   parse_attending_tristate.2.2.2.1 "Unknown" (by decide),
   parse_attending_tristate.2.2.2.2 "maybe??" (by decide) (by decide)⟩

/-! ### C3: missing-column fail-fast -/

/-- C3: when the cleaned column set misses any required column, the import
returns the ValueError immediately, leaves the database untouched (no
persistence operation ran), and the message names every missing column and
every column actually found. -/
theorem import_missing_columns_fail_fast
    (now : Nat) (csv : Csv) (db : DB)
    (h : ∃ c ∈ required_columns, c ∉ clean_column_names csv.columns) :
    ∃ msg, import_applications_from_csv now csv db = (.error (.valueError msg), db)
      ∧ (∀ c ∈ required_columns, c ∉ clean_column_names csv.columns → c.data <:+: msg.data)
      ∧ (∀ c ∈ clean_column_names csv.columns, c.data <:+: msg.data) := by
  obtain ⟨c0, hc0, hc0n⟩ := h
  have hmiss : required_columns.filter (fun c => c ∉ clean_column_names csv.columns) ≠ [] := by
    intro hnil
    have : c0 ∈ required_columns.filter (fun c => c ∉ clean_column_names csv.columns) := by
      rw [List.mem_filter]
      exact ⟨hc0, by simpa using hc0n⟩
    rw [hnil] at this
    cases this
  refine ⟨missing_columns_message
      (required_columns.filter (fun c => c ∉ clean_column_names csv.columns))
      (clean_column_names csv.columns), ?_, ?_, ?_⟩
  · simp only [import_applications_from_csv, if_pos hmiss]
  · intro c hc hcn
    have hmem : c ∈ required_columns.filter (fun c => c ∉ clean_column_names csv.columns) := by
      rw [List.mem_filter]
      exact ⟨hc, by simpa using hcn⟩
    have h1 := mem_infix_py_str_list hmem
    unfold missing_columns_message
    simp only [String.data_append]
    exact infix_append_right (infix_append_right (infix_append_left h1 _) _) _
  · intro c hc
    have h1 := mem_infix_py_str_list hc
    unfold missing_columns_message
    simp only [String.data_append]
    exact infix_append_left h1 _

/-- Witness for C3: a file lacking ceeb_code (the test case of the repo). -/
theorem import_missing_columns_fail_fast_witness :
    ∃ msg, import_applications_from_csv 0
        { columns := ["student_number", "college_name", "application_type",
                      "application_result", "attending"], rows := [] } DB.empty
        = (.error (.valueError msg), DB.empty)
      ∧ (∀ c ∈ required_columns,
            c ∉ clean_column_names ["student_number", "college_name", "application_type",
                      "application_result", "attending"] → c.data <:+: msg.data)
      ∧ (∀ c ∈ clean_column_names ["student_number", "college_name", "application_type",
                      "application_result", "attending"], c.data <:+: msg.data) :=
  import_missing_columns_fail_fast 0
    { columns := ["student_number", "college_name", "application_type",
                  "application_result", "attending"], rows := [] } DB.empty
    ⟨"ceeb_code", by decide, by decide⟩

/-! ### C9: an existing college is matched by ceeb and never renamed -/

/-- C9: for a non-empty (stripped) ceeb code that matches exactly one
existing college, `get_or_create_college` returns that college and leaves
the database — in particular the college's name — completely unchanged,
whatever `cname` the row carries; the name is taken from the row only on
the creation path. -/
theorem get_or_create_college_ceeb_match_no_rename
    (db : DB) (ceeb cname : String) (c : College)
    (h0 : py_strip ceeb ≠ "")
    (h1 : db.colleges.filter (fun x => x.ceeb_code = py_strip ceeb) = [c]) :
    get_or_create_college db ceeb cname = .ok (c, db)
  ∧ (db.colleges.filter (fun x => x.ceeb_code = py_strip ceeb) = [] →
      get_or_create_college db ceeb cname =
        .ok ({ id := db.nextId, name := py_strip cname, ceeb_code := py_strip ceeb },
             { db with
               colleges :=
                 db.colleges ++ [{ id := db.nextId, name := py_strip cname, ceeb_code := py_strip ceeb }],
               nextId := db.nextId + 1 })) := by
  constructor
  · unfold get_or_create_college
    rw [if_pos h0, h1]
  · intro h2
    unfold get_or_create_college
    rw [if_pos h0, h2]

/-- Witness for C9: ceeb 2295 already present under a different name. -/
theorem get_or_create_college_ceeb_match_no_rename_witness :
    get_or_create_college
      { districts := [], students := [],
        colleges := [{ id := 1, name := "Stonehill College", ceeb_code := "2295" }],
        applications := [], nextId := 2 }
      "2295" "Stonehill Coll."
    = .ok ({ id := 1, name := "Stonehill College", ceeb_code := "2295" },
           { districts := [], students := [],
             colleges := [{ id := 1, name := "Stonehill College", ceeb_code := "2295" }],
             applications := [], nextId := 2 }) :=
  (get_or_create_college_ceeb_match_no_rename
    { districts := [], students := [],
      colleges := [{ id := 1, name := "Stonehill College", ceeb_code := "2295" }],
      applications := [], nextId := 2 }
    "2295" "Stonehill Coll."
    { id := 1, name := "Stonehill College", ceeb_code := "2295" }
    (by decide) (by decide)).1

/-! ### C6: upsert semantics of the application write -/

/-- C6: `update_or_create` keyed by (student, college).  When exactly one
record with the pair exists — its `is_archived` flag unconstrained, so an
archived record is matched too — its result/type/attending are overwritten
and `is_archived`/`archived_at` forced back to false/null (only `updated_on`
moves besides them); when none exists a fresh record is created with the
row's values and `is_archived = false`, `archived_at = null`. -/
theorem application_update_or_create_upsert :
    (∀ (db : DB) (now : Nat) (st : Student) (col : College) (res ty : Option String)
       (att : Option Bool) (a : CollegeApplication),
      db.applications.filter (fun x => x.student_id = st.id ∧ x.college_id = col.id) = [a] →
      (db.applications.map (fun x => x.id)).Nodup →
      ∃ pre post, db.applications = pre ++ a :: post ∧
        application_update_or_create db now st col res ty att =
          .ok (false, { db with applications := pre ++
            ({ a with application_result := res, application_type := ty, attending := att,
                      is_archived := false, archived_at := none, updated_on := now } :: post) }))
  ∧ (∀ (db : DB) (now : Nat) (st : Student) (col : College) (res ty : Option String)
       (att : Option Bool),
      db.applications.filter (fun x => x.student_id = st.id ∧ x.college_id = col.id) = [] →
      application_update_or_create db now st col res ty att =
        .ok (true, { db with applications := db.applications ++
          [{ id := db.nextId, student_id := st.id, college_id := col.id,
             application_result := res, application_type := ty, attending := att,
             is_archived := false, archived_at := none,
             created_on := now, updated_on := now }], nextId := db.nextId + 1 })) := by
  constructor
  · intro db now st col res ty att a h1 h2
    obtain ⟨pre, post, hsplit, hpre, hpost, hpa⟩ := filter_eq_singleton_decomp h1
    refine ⟨pre, post, hsplit, ?_⟩
    unfold application_update_or_create
    rw [h1]
    have hids : ((pre ++ a :: post).map (fun x => x.id)).Nodup := hsplit ▸ h2
    have hinj := List.inj_on_of_nodup_map hids
    have hprene : ∀ x ∈ pre, ¬ x.id = a.id := by
      intro x hx hid
      have hxe : x = a := hinj (List.mem_append.mpr (Or.inl hx)) (by simp) hid
      rw [hxe] at hx
      have h5 := hpre a hx
      rw [hpa] at h5
      cases h5
    have hpostne : ∀ x ∈ post, ¬ x.id = a.id := by
      intro x hx hid
      have hxe : x = a := hinj (by simp [hx]) (by simp) hid
      rw [hxe] at hx
      have h5 := hpost a hx
      rw [hpa] at h5
      cases h5
    split
    · simp_all
    · rename_i a1 heq
      injection heq with h6 h7
      subst h6
      rw [show db.applications = pre ++ a :: post from hsplit,
          map_ite_split hprene hpostne rfl]
    · simp_all
  · intro db now st col res ty att h1
    unfold application_update_or_create
    rw [h1]

/-- Witness for C6: updating an archived record revives it; creating into an
empty table sets the row's values. -/
theorem application_update_or_create_upsert_witness :
    (∃ pre post, dbW.applications = pre ++ appW :: post ∧
      application_update_or_create dbW 7 stW colW (some "accepted") (some "Early Action")
          (some true) =
        .ok (false, { dbW with applications := pre ++
          ({ appW with application_result := some "accepted",
                       application_type := some "Early Action", attending := some true,
                       is_archived := false, archived_at := none, updated_on := 7 } :: post) }))
  ∧ application_update_or_create DB.empty 7 stW colW none none none =
      .ok (true, { DB.empty with
                   applications := DB.empty.applications ++
                     [{ id := DB.empty.nextId, student_id := stW.id, college_id := colW.id,
                        application_result := none, application_type := none, attending := none,
                        is_archived := false, archived_at := none,
                        created_on := 7, updated_on := 7 }],
                   nextId := DB.empty.nextId + 1 }) :=
  ⟨application_update_or_create_upsert.1 dbW 7 stW colW (some "accepted") (some "Early Action")
      (some true) appW (by decide) (by decide),
   application_update_or_create_upsert.2 DB.empty 7 stW colW none none none (by decide)⟩

/-! ### C7: the archive sweep -/

/-- C7: once the rows are upserted, the sweep archives — with the one shared
run timestamp — exactly those applications that are non-archived, belong to a
student of the run's district, and whose (student, college) pair was not
touched; every other application, in particular every touched pair and every
application outside the district's students, is left exactly as it was. -/
theorem archive_sweep_archives_exactly_untouched
    (now : Nat) (district : District) (touched : List (Nat × Nat)) (db : DB)
    (h : (db.applications.map (fun a => a.id)).Nodup) :
    ((archive_sweep now district touched db).2.districts = db.districts
      ∧ (archive_sweep now district touched db).2.students = db.students
      ∧ (archive_sweep now district touched db).2.colleges = db.colleges
      ∧ (archive_sweep now district touched db).2.nextId = db.nextId)
  ∧ (archive_sweep now district touched db).2.applications
      = db.applications.map (fun a =>
          if a.is_archived = false ∧ app_in_district db district a = true
              ∧ (a.student_id, a.college_id) ∉ touched then
            { a with is_archived := true, archived_at := some now }
          else a) := by
  have hmem : ∀ a ∈ db.applications,
      (a.id ∈ ((db.applications.filter
            (fun x => !x.is_archived && app_in_district db district x)).filter
          (fun x => (x.student_id, x.college_id) ∉ touched)).map (fun x => x.id))
      ↔ (a.is_archived = false ∧ app_in_district db district a = true
          ∧ (a.student_id, a.college_id) ∉ touched) := by
    intro a ha
    constructor
    · intro hid
      obtain ⟨b, hb, hbid⟩ := List.mem_map.mp hid
      obtain ⟨hb1, hb2⟩ := List.mem_filter.mp hb
      obtain ⟨hb0, hb3⟩ := List.mem_filter.mp hb1
      have hba : b = a := List.inj_on_of_nodup_map h hb0 ha hbid
      subst hba
      rw [Bool.and_eq_true, Bool.not_eq_true'] at hb3
      exact ⟨hb3.1, hb3.2, by simpa using hb2⟩
    · rintro ⟨h1, h2, h3⟩
      refine List.mem_map.mpr ⟨a, List.mem_filter.mpr ⟨List.mem_filter.mpr ⟨ha, ?_⟩, ?_⟩, rfl⟩
      · rw [Bool.and_eq_true, Bool.not_eq_true']
        exact ⟨h1, h2⟩
      · simpa using h3
  by_cases hcond : ((db.applications.filter
        (fun x => !x.is_archived && app_in_district db district x)).filter
      (fun x => (x.student_id, x.college_id) ∉ touched)).map (fun x => x.id) ≠ []
  · unfold archive_sweep
    rw [if_pos hcond]
    refine ⟨⟨rfl, rfl, rfl, rfl⟩, ?_⟩
    refine List.map_congr_left ?_
    intro a ha
    by_cases hC : a.is_archived = false ∧ app_in_district db district a = true
        ∧ (a.student_id, a.college_id) ∉ touched
    · rw [if_pos ((hmem a ha).mpr hC), if_pos hC]
    · rw [if_neg (fun hcon => hC ((hmem a ha).mp hcon)), if_neg hC]
  · unfold archive_sweep
    rw [if_neg hcond]
    rw [not_not] at hcond
    refine ⟨⟨rfl, rfl, rfl, rfl⟩, ?_⟩
    symm
    refine map_ite_id_of_ne ?_
    intro a ha hC
    have hin := (hmem a ha).mpr hC
    rw [hcond] at hin
    cases hin

/-- Witness for C7: of two live applications of the district, the touched
pair survives and the omitted pair is archived at the sweep timestamp. -/
theorem archive_sweep_archives_exactly_untouched_witness :
    (((archive_sweep 9 dW [(2, 3)] dbW7).2.districts = dbW7.districts
      ∧ (archive_sweep 9 dW [(2, 3)] dbW7).2.students = dbW7.students
      ∧ (archive_sweep 9 dW [(2, 3)] dbW7).2.colleges = dbW7.colleges
      ∧ (archive_sweep 9 dW [(2, 3)] dbW7).2.nextId = dbW7.nextId)
  ∧ (archive_sweep 9 dW [(2, 3)] dbW7).2.applications
      = dbW7.applications.map (fun a =>
          if a.is_archived = false ∧ app_in_district dbW7 dW a = true
              ∧ (a.student_id, a.college_id) ∉ [(2, 3)] then
            { a with is_archived := true, archived_at := some 9 }
          else a)) :=
  archive_sweep_archives_exactly_untouched 9 dW [(2, 3)] dbW7 (by decide)

/-! ### C10: empty result/type are stored as NULL -/

/-- C10: a processed row whose cleaned application_result or
application_type is the empty string stores NULL in that field — the only
applications of the post-state that are not carried over unchanged from the
pre-state (the created one, or the updated one) hold `none_if_empty` of the
row's fields, which is `none` for the empty string; this covers creation and
update alike. -/
theorem process_row_empty_strings_stored_null
    (now : Nat) (district : District) (st : LoopState) (row : Row) (st2 : LoopState)
    (h : process_row now district st row = .ok st2) :
    ∀ a ∈ st2.db.applications, a ∈ st.db.applications ∨
      ((row.application_result = "" → a.application_result = none) ∧
       (row.application_type = "" → a.application_type = none)) := by
  obtain ⟨s, b1, db1, c, db2, bnew, db3, hs, hc, hu, hst2⟩ := process_row_ok_elim h
  have happs1 := (student_goc_frame hs).2.2
  have happs2 := (college_goc_frame hc).2.2
  subst hst2
  intro a ha
  simp only at ha
  rcases app_uoc_cases hu with ⟨_, hdb3, _⟩ | ⟨_, a0, _, hdb3⟩
  · rw [hdb3] at ha
    simp only [List.mem_append, List.mem_singleton] at ha
    rcases ha with ha | rfl
    · left
      rw [← happs1, ← happs2]
      exact ha
    · right
      constructor
      · intro hr
        simp [none_if_empty, hr]
      · intro ht
        simp [none_if_empty, ht]
  · rw [hdb3] at ha
    simp only [List.mem_map] at ha
    obtain ⟨x, hx, rfl⟩ := ha
    by_cases hid : x.id = a0.id
    · right
      rw [if_pos hid]
      constructor
      · intro hr
        simp [none_if_empty, hr]
      · intro ht
        simp [none_if_empty, ht]
    · left
      rw [if_neg hid, ← happs1, ← happs2]
      exact hx

/-- Witness for C10: the application created from `rowL` (empty result) stores NULL. -/
theorem process_row_empty_strings_stored_null_witness :
    appL ∈ ({ db := dbD, touched := [], created := 0,
              updated := 0 } : LoopState).db.applications
  ∨ ((rowL.application_result = "" → appL.application_result = none)
     ∧ (rowL.application_type = "" → appL.application_type = none)) :=
  process_row_empty_strings_stored_null 7 dW
    { db := dbD, touched := [], created := 0, updated := 0 } rowL _ (by rfl)
    appL (by decide)

/-! ### Two-row import evaluation (shared by the C1 and C5 theorems) -/

/-- Importing a fresh database from a two-row file whose rows carry the same
dedup key keeps only the second row: one student, one college and one
application are created, all from the second row's cleaned values. -/
theorem import_two_rows_same_key_eval
    (now : Nat) (r1 r2 : RawRow)
    (hkey : rowKey (normalize_row r2) = rowKey (normalize_row r1)) :
    import_applications_from_csv now { columns := required_columns, rows := [r1, r2] } DB.empty
      = (.ok { total_processed := 1, created := 1, updated := 0, archived := 0 },
         { districts := [dW],
           students := [{ id := 2, district_id := 1,
                          student_number := (normalize_row r2).student_number }],
           colleges := [{ id := 3, name := (normalize_row r2).college_name,
                          ceeb_code := (normalize_row r2).ceeb_code }],
           applications :=
             [{ id := 4, student_id := 2, college_id := 3,
                application_result := none_if_empty (normalize_row r2).application_result,
                application_type := none_if_empty (normalize_row r2).application_type,
                attending := nan_to_none (normalize_row r2).attending_parsed,
                is_archived := false, archived_at := none,
                created_on := now, updated_on := now }],
           nextId := 5 }) := by
  have hval : required_columns.filter
      (fun c => c ∉ clean_column_names
        (({ columns := required_columns, rows := [r1, r2] } : Csv)).columns) = [] := by
    show required_columns.filter (fun c => c ∉ clean_column_names required_columns) = []
    decide
  rw [import_eq_core hval]
  have hded : drop_duplicates_keep_last
      ((({ columns := required_columns, rows := [r1, r2] } : Csv)).rows.map normalize_row)
      = [normalize_row r2] := by
    show drop_duplicates_keep_last [normalize_row r1, normalize_row r2] = [normalize_row r2]
    unfold drop_duplicates_keep_last
    rw [if_pos (by simp [hkey])]
    unfold drop_duplicates_keep_last
    rw [if_neg (by simp)]
    rfl
  have hstripc : py_strip (normalize_row r2).ceeb_code = (normalize_row r2).ceeb_code :=
    normalize_ceeb_strip r2
  have hstripn : py_strip (normalize_row r2).college_name = (normalize_row r2).college_name :=
    normalize_cname_strip r2
  have hd : district_get_or_create DB.empty "SchooLinks" = .ok (dW, true, dbD) := rfl
  have hs : student_get_or_create dbD dW (normalize_row r2).student_number =
      .ok ({ id := 2, district_id := 1, student_number := (normalize_row r2).student_number },
           true,
           { districts := [dW],
             students := [{ id := 2, district_id := 1,
                            student_number := (normalize_row r2).student_number }],
             colleges := [], applications := [], nextId := 3 }) := rfl
  have hc : get_or_create_college
      { districts := [dW],
        students := [{ id := 2, district_id := 1,
                       student_number := (normalize_row r2).student_number }],
        colleges := [], applications := [], nextId := 3 }
      (normalize_row r2).ceeb_code (normalize_row r2).college_name =
      .ok ({ id := 3, name := (normalize_row r2).college_name,
             ceeb_code := (normalize_row r2).ceeb_code },
           { districts := [dW],
             students := [{ id := 2, district_id := 1,
                            student_number := (normalize_row r2).student_number }],
             colleges := [{ id := 3, name := (normalize_row r2).college_name,
                            ceeb_code := (normalize_row r2).ceeb_code }],
             applications := [], nextId := 4 }) := by
    unfold get_or_create_college
    rw [hstripc, hstripn]
    by_cases hbr : (normalize_row r2).ceeb_code ≠ ""
    · rw [if_pos hbr]
      rfl
    · rw [if_neg hbr]
      rw [not_not] at hbr
      rw [hbr]
      rfl
  have hu : application_update_or_create
      { districts := [dW],
        students := [{ id := 2, district_id := 1,
                       student_number := (normalize_row r2).student_number }],
        colleges := [{ id := 3, name := (normalize_row r2).college_name,
                       ceeb_code := (normalize_row r2).ceeb_code }],
        applications := [], nextId := 4 }
      now { id := 2, district_id := 1, student_number := (normalize_row r2).student_number }
      { id := 3, name := (normalize_row r2).college_name,
        ceeb_code := (normalize_row r2).ceeb_code }
      (none_if_empty (normalize_row r2).application_result)
      (none_if_empty (normalize_row r2).application_type)
      (nan_to_none (normalize_row r2).attending_parsed) =
      .ok (true,
           { districts := [dW],
             students := [{ id := 2, district_id := 1,
                            student_number := (normalize_row r2).student_number }],
             colleges := [{ id := 3, name := (normalize_row r2).college_name,
                            ceeb_code := (normalize_row r2).ceeb_code }],
             applications :=
               [{ id := 4, student_id := 2, college_id := 3,
                  application_result := none_if_empty (normalize_row r2).application_result,
                  application_type := none_if_empty (normalize_row r2).application_type,
                  attending := nan_to_none (normalize_row r2).attending_parsed,
                  is_archived := false, archived_at := none,
                  created_on := now, updated_on := now }],
             nextId := 5 }) := rfl
  have hpr := @process_row_eq _ _
    { db := dbD, touched := [], created := 0, updated := 0 } _ _ _ _ _ _ _ _ hs hc hu
  have hrun := (@run_rows_cons_ok _ _ _ _ [] _ hpr).trans run_rows_nil
  rw [import_core_eq_ok hd (by rw [hded]; exact hrun)]
  rw [hded]
  rfl

/-! ### C1: case-insensitive name duplicates -/

/-- C1 (amended): for a file of two rows with the same student_number, both
with empty ceeb_code, and college names equal up to letter case, the import
persists exactly one Application for the student; but because the dedup step
drops the earlier row before any database access, the persisted College's
name is the cleaned name of the row that appeared LAST in file order (not
first, as the spec claims), and the Application's fields are the last row's
values. -/
theorem import_case_dup_college_name_last_wins
    (now : Nat) (r1 r2 : RawRow)
    (hsn : (normalize_row r1).student_number = (normalize_row r2).student_number)
    (hc1 : (normalize_row r1).ceeb_code = "")
    (hc2 : (normalize_row r2).ceeb_code = "")
    (hname : py_lower (normalize_row r1).college_name
      = py_lower (normalize_row r2).college_name) :
    import_applications_from_csv now { columns := required_columns, rows := [r1, r2] } DB.empty
      = (.ok { total_processed := 1, created := 1, updated := 0, archived := 0 },
         { districts := [dW],
           students := [{ id := 2, district_id := 1,
                          student_number := (normalize_row r2).student_number }],
           colleges := [{ id := 3, name := (normalize_row r2).college_name,
                          ceeb_code := "" }],
           applications :=
             [{ id := 4, student_id := 2, college_id := 3,
                application_result := none_if_empty (normalize_row r2).application_result,
                application_type := none_if_empty (normalize_row r2).application_type,
                attending := nan_to_none (normalize_row r2).attending_parsed,
                is_archived := false, archived_at := none,
                created_on := now, updated_on := now }],
           nextId := 5 }) := by
  have hkey : rowKey (normalize_row r2) = rowKey (normalize_row r1) := by
    unfold rowKey college_key
    rw [hc1, hc2, if_neg (by simp), if_neg (by simp), hsn, hname]
  have h := import_two_rows_same_key_eval now r1 r2 hkey
  rw [hc2] at h
  exact h

/-- Counterexample for C1 as stated: the Quinnipiac file satisfies every
premise of the claim, yet the single persisted College carries the LAST
row's name variant, not the first row's. -/
theorem import_case_dup_college_name_counterexample :
    ((normalize_row rawQ1).student_number = (normalize_row rawQ2).student_number
      ∧ (normalize_row rawQ1).ceeb_code = "" ∧ (normalize_row rawQ2).ceeb_code = ""
      ∧ py_lower (normalize_row rawQ1).college_name
          = py_lower (normalize_row rawQ2).college_name
      ∧ (normalize_row rawQ1).college_name ≠ (normalize_row rawQ2).college_name)
  ∧ ((import_applications_from_csv 3
        { columns := required_columns, rows := [rawQ1, rawQ2] } DB.empty).2.colleges.map
      (fun c => c.name) = ["quinnipiac university"])
  ∧ "quinnipiac university" ≠ "Quinnipiac University" := by decide

/-- Witness for C1 (amended) at the Quinnipiac rows. -/
theorem import_case_dup_college_name_last_wins_witness :
    import_applications_from_csv 3
        { columns := required_columns, rows := [rawQ1, rawQ2] } DB.empty
      = (.ok { total_processed := 1, created := 1, updated := 0, archived := 0 },
         { districts := [dW],
           students := [{ id := 2, district_id := 1, student_number := "974195" }],
           colleges := [{ id := 3, name := "quinnipiac university", ceeb_code := "" }],
           applications :=
             [{ id := 4, student_id := 2, college_id := 3,
                application_result := some "accepted",
                application_type := some "Rolling Decision",
                attending := some true, is_archived := false, archived_at := none,
                created_on := 3, updated_on := 3 }],
           nextId := 5 }) :=
  import_case_dup_college_name_last_wins 3 rawQ1 rawQ2
    (by decide) (by decide) (by decide) (by decide)

/-! ### C5: dedup groups by (student_number, key), last row wins -/

/-- C5 (amended): the dedup step preserves the original relative order of the
surviving rows (Sublist), and per (student_number, grouping key) it keeps
exactly the last row of the group; consequently a fresh import of two rows
with identical student_number and identical NON-EMPTY ceeb_code (the
amendment: with an empty ceeb_code the rows group by college name instead,
and names differing beyond case stay separate) persists exactly one
Application holding the second row's values. -/
theorem dedup_groups_by_key_last_wins :
    (∀ l : List Row, (drop_duplicates_keep_last l).Sublist l)
  ∧ (∀ (l : List Row) (k : String × String),
      (drop_duplicates_keep_last l).filter (fun r => rowKey r = k)
        = ((l.filter (fun r => rowKey r = k)).getLast?).toList)
  ∧ (∀ (now : Nat) (r1 r2 : RawRow),
      (normalize_row r1).student_number = (normalize_row r2).student_number →
      (normalize_row r1).ceeb_code = (normalize_row r2).ceeb_code →
      (normalize_row r2).ceeb_code ≠ "" →
      import_applications_from_csv now
          { columns := required_columns, rows := [r1, r2] } DB.empty
        = (.ok { total_processed := 1, created := 1, updated := 0, archived := 0 },
           { districts := [dW],
             students := [{ id := 2, district_id := 1,
                            student_number := (normalize_row r2).student_number }],
             colleges := [{ id := 3, name := (normalize_row r2).college_name,
                            ceeb_code := (normalize_row r2).ceeb_code }],
             applications :=
               [{ id := 4, student_id := 2, college_id := 3,
                  application_result := none_if_empty (normalize_row r2).application_result,
                  application_type := none_if_empty (normalize_row r2).application_type,
                  attending := nan_to_none (normalize_row r2).attending_parsed,
                  is_archived := false, archived_at := none,
                  created_on := now, updated_on := now }],
             nextId := 5 })) := by
  refine ⟨drop_duplicates_sublist, drop_duplicates_filter_key, ?_⟩
  intro now r1 r2 hsn hceeb hne
  have hkey : rowKey (normalize_row r2) = rowKey (normalize_row r1) := by
    unfold rowKey college_key
    rw [hceeb, hsn, if_pos hne, if_pos hne]
  exact import_two_rows_same_key_eval now r1 r2 hkey

/-- Counterexample for C5 as stated: two rows with identical
(student_number, ceeb_code) — both empty — and differing results, whose
college names differ beyond case: the import persists TWO applications, not
one. -/
theorem dedup_groups_by_key_last_wins_counterexample :
    ((normalize_row rawA).student_number = (normalize_row rawB).student_number
      ∧ (normalize_row rawA).ceeb_code = (normalize_row rawB).ceeb_code
      ∧ (normalize_row rawA).application_result ≠ (normalize_row rawB).application_result)
  ∧ (import_applications_from_csv 0
      { columns := required_columns, rows := [rawA, rawB] } DB.empty).2.applications.length
      = 2 := by decide

/-- Witness for C5 (amended) at the Suffolk duplicate rows. -/
theorem dedup_groups_by_key_last_wins_witness :
    import_applications_from_csv 2
        { columns := required_columns, rows := [rawS1, rawS2] } DB.empty
      = (.ok { total_processed := 1, created := 1, updated := 0, archived := 0 },
         { districts := [dW],
           students := [{ id := 2, district_id := 1, student_number := "974472" }],
           colleges := [{ id := 3, name := "Suffolk University", ceeb_code := "3771" }],
           applications :=
             [{ id := 4, student_id := 2, college_id := 3,
                application_result := some "accepted",
                application_type := some "Early Action",
                attending := some true, is_archived := false, archived_at := none,
                created_on := 2, updated_on := 2 }],
           nextId := 5 }) :=
  dedup_groups_by_key_last_wins.2.2 2 rawS1 rawS2 (by decide) (by decide) (by decide)

/-! ### C2: rollback on persistence failure -/

/-- C2 (amended): when a run fails — on the column check, on the district
lookup, or on any persistence operation inside the atomic block — the
students, colleges and applications relations are left exactly as before.
The districts relation, however, is not fully protected: the district
get-or-create at source line 116 runs BEFORE `transaction.atomic()`, so a
failing run may still have appended the "SchooLinks" district; that is the
only possible change. -/
theorem import_error_rollback
    (now : Nat) (csv : Csv) (db db2 : DB) (e : ImportError)
    (h : import_applications_from_csv now csv db = (.error e, db2)) :
    db2.students = db.students ∧ db2.colleges = db.colleges
  ∧ db2.applications = db.applications
  ∧ (db2.districts = db.districts
      ∨ db2.districts = db.districts ++ [{ id := db.nextId, name := "SchooLinks" }]) := by
  unfold import_applications_from_csv at h
  by_cases hval : required_columns.filter (fun c => c ∉ clean_column_names csv.columns) ≠ []
  · rw [if_pos hval] at h
    simp only [Prod.mk.injEq] at h
    rw [← h.2]
    exact ⟨rfl, rfl, rfl, Or.inl rfl⟩
  · rw [if_neg hval] at h
    unfold import_core at h
    split at h
    · simp only [Prod.mk.injEq] at h
      rw [← h.2]
      exact ⟨rfl, rfl, rfl, Or.inl rfl⟩
    · rename_i d bd db1 heq
      split at h
      · simp only [Prod.mk.injEq] at h
        rw [← h.2]
        rcases district_goc_cases heq with ⟨_, rfl, _⟩ | ⟨_, hd, rfl, _⟩
        · exact ⟨rfl, rfl, rfl, Or.inl rfl⟩
        · exact ⟨rfl, rfl, rfl, Or.inr (by rw [hd])⟩
      · simp only [Prod.mk.injEq] at h
        cases h.1

/-- Counterexample for C2 as stated: a run that fails inside the atomic
block (ambiguous college name) still leaves the districts relation changed,
because the district get_or_create ran before the transaction. -/
theorem import_error_rollback_counterexample :
    ((import_applications_from_csv 0
        { columns := required_columns, rows := [rawX] } dbX).1
      = .error (.dbError .multipleObjectsReturned))
  ∧ (import_applications_from_csv 0
        { columns := required_columns, rows := [rawX] } dbX).2.districts
      ≠ dbX.districts := by decide

/-- Witness for C2 (amended) at the failing run on dbX. -/
theorem import_error_rollback_witness :
    (({ districts := [{ id := 3, name := "SchooLinks" }], students := [],
        colleges := [{ id := 1, name := "X", ceeb_code := "" },
                     { id := 2, name := "X", ceeb_code := "" }],
        applications := [], nextId := 4 } : DB).students = dbX.students
    ∧ ({ districts := [{ id := 3, name := "SchooLinks" }], students := [],
         colleges := [{ id := 1, name := "X", ceeb_code := "" },
                      { id := 2, name := "X", ceeb_code := "" }],
         applications := [], nextId := 4 } : DB).colleges = dbX.colleges
    ∧ ({ districts := [{ id := 3, name := "SchooLinks" }], students := [],
         colleges := [{ id := 1, name := "X", ceeb_code := "" },
                      { id := 2, name := "X", ceeb_code := "" }],
         applications := [], nextId := 4 } : DB).applications = dbX.applications
    ∧ (({ districts := [{ id := 3, name := "SchooLinks" }], students := [],
          colleges := [{ id := 1, name := "X", ceeb_code := "" },
                       { id := 2, name := "X", ceeb_code := "" }],
          applications := [], nextId := 4 } : DB).districts = dbX.districts
        ∨ ({ districts := [{ id := 3, name := "SchooLinks" }], students := [],
             colleges := [{ id := 1, name := "X", ceeb_code := "" },
                          { id := 2, name := "X", ceeb_code := "" }],
             applications := [], nextId := 4 } : DB).districts
            = dbX.districts ++ [{ id := dbX.nextId, name := "SchooLinks" }])) :=
  import_error_rollback 0 { columns := required_columns, rows := [rawX] } dbX
    { districts := [{ id := 3, name := "SchooLinks" }], students := [],
      colleges := [{ id := 1, name := "X", ceeb_code := "" },
                   { id := 2, name := "X", ceeb_code := "" }],
      applications := [], nextId := 4 }
    (.dbError .multipleObjectsReturned) (by decide)

/-! ### Helpers for the idempotence development -/

theorem nodup_append_fresh {l : List Nat} {n : Nat} (h : l.Nodup) (hb : ∀ i ∈ l, i < n) :
    (l ++ [n]).Nodup := by
  rw [List.nodup_append]
  refine ⟨h, List.nodup_singleton n, ?_⟩
  intro a ha hb2
  have := hb a ha
  simp only [List.mem_singleton] at hb2
  omega

/-- Filtering by the (student, college) pair commutes with a map that
preserves the pair. -/
theorem filter_map_pair_preserving (f : CollegeApplication → CollegeApplication)
    (hf : ∀ x, (f x).student_id = x.student_id ∧ (f x).college_id = x.college_id)
    (l : List CollegeApplication) (sid cid : Nat) :
    (l.map f).filter (fun x => x.student_id = sid ∧ x.college_id = cid)
      = (l.filter (fun x => x.student_id = sid ∧ x.college_id = cid)).map f := by
  induction l with
  | nil => rfl
  | cons x xs ih =>
    by_cases hx : x.student_id = sid ∧ x.college_id = cid
    · rw [List.map_cons, List.filter_cons_of_pos (by simp [(hf x).1, (hf x).2, hx.1, hx.2]),
          List.filter_cons_of_pos (by simp [hx.1, hx.2]), List.map_cons, ih]
    · rw [List.map_cons, List.filter_cons_of_neg ?hneg,
          List.filter_cons_of_neg (by simpa using hx), ih]
      case hneg =>
        simp only [decide_eq_true_eq, (hf x).1, (hf x).2]
        simpa using hx

/-- Overwriting the unique filter match by its id splits the list. -/
theorem map_overwrite_by_id {l : List CollegeApplication} {a : CollegeApplication}
    (f : CollegeApplication → CollegeApplication) {p : CollegeApplication → Bool}
    (h2 : (l.map (fun x => x.id)).Nodup) (h1 : l.filter p = [a]) :
    ∃ pre post, l = pre ++ a :: post
      ∧ (∀ x ∈ pre, p x = false) ∧ (∀ x ∈ post, p x = false) ∧ p a = true
      ∧ l.map (fun x => if x.id = a.id then f x else x) = pre ++ f a :: post := by
  obtain ⟨pre, post, hsplit, hpre, hpost, hpa⟩ := filter_eq_singleton_decomp h1
  have hids : ((pre ++ a :: post).map (fun x => x.id)).Nodup := hsplit ▸ h2
  have hinj := List.inj_on_of_nodup_map hids
  have hprene : ∀ x ∈ pre, ¬ x.id = a.id := by
    intro x hx hid
    have hxe : x = a := hinj (List.mem_append.mpr (Or.inl hx)) (by simp) hid
    rw [hxe] at hx
    have h5 := hpre a hx
    rw [hpa] at h5
    cases h5
  have hpostne : ∀ x ∈ post, ¬ x.id = a.id := by
    intro x hx hid
    have hxe : x = a := hinj (by simp [hx]) (by simp) hid
    rw [hxe] at hx
    have h5 := hpost a hx
    rw [hpa] at h5
    cases h5
  refine ⟨pre, post, hsplit, hpre, hpost, hpa, ?_⟩
  rw [hsplit, map_ite_split hprene hpostne rfl]

theorem wf_district_goc {db : DB} {nm : String} {d : District} {b : Bool} {db2 : DB}
    (h : district_get_or_create db nm = .ok (d, b, db2)) (hwf : db.WF) : db2.WF := by
  obtain ⟨w1, w2, w3, w4, w5, w6, w7, w8⟩ := hwf
  rcases district_goc_cases h with ⟨_, rfl, _⟩ | ⟨_, hd, rfl, _⟩
  · exact ⟨w1, w2, w3, w4, w5, w6, w7, w8⟩
  · subst hd
    refine ⟨?_, ?_, w3, fun s hs => Nat.lt_succ_of_lt (w4 s hs), w5,
      fun c hc => Nat.lt_succ_of_lt (w6 c hc), w7, fun a ha => Nat.lt_succ_of_lt (w8 a ha)⟩
    · rw [List.map_append]
      exact nodup_append_fresh w1 (fun i hi => by
        obtain ⟨x, hx, rfl⟩ := List.mem_map.mp hi
        exact w2 x hx)
    · intro x hx
      rcases List.mem_append.mp hx with hx | hx
      · exact Nat.lt_succ_of_lt (w2 x hx)
      · simp only [List.mem_singleton] at hx
        rw [hx]
        exact Nat.lt_succ_self _

theorem wf_student_goc {db : DB} {district : District} {sn : String} {s : Student}
    {b : Bool} {db2 : DB}
    (h : student_get_or_create db district sn = .ok (s, b, db2)) (hwf : db.WF) : db2.WF := by
  obtain ⟨w1, w2, w3, w4, w5, w6, w7, w8⟩ := hwf
  rcases student_goc_cases h with ⟨_, rfl, _⟩ | ⟨_, hs, rfl, _⟩
  · exact ⟨w1, w2, w3, w4, w5, w6, w7, w8⟩
  · subst hs
    refine ⟨w1, fun d hd => Nat.lt_succ_of_lt (w2 d hd), ?_, ?_, w5,
      fun c hc => Nat.lt_succ_of_lt (w6 c hc), w7, fun a ha => Nat.lt_succ_of_lt (w8 a ha)⟩
    · rw [List.map_append]
      exact nodup_append_fresh w3 (fun i hi => by
        obtain ⟨x, hx, rfl⟩ := List.mem_map.mp hi
        exact w4 x hx)
    · intro x hx
      rcases List.mem_append.mp hx with hx | hx
      · exact Nat.lt_succ_of_lt (w4 x hx)
      · simp only [List.mem_singleton] at hx
        rw [hx]
        exact Nat.lt_succ_self _

theorem wf_college_goc {db : DB} {ceeb cname : String} {c : College} {db2 : DB}
    (h : get_or_create_college db ceeb cname = .ok (c, db2)) (hwf : db.WF) : db2.WF := by
  obtain ⟨w1, w2, w3, w4, w5, w6, w7, w8⟩ := hwf
  have hfresh : ∀ cnew : College, cnew.id = db.nextId →
      ({ db with colleges := db.colleges ++ [cnew], nextId := db.nextId + 1 } : DB).WF := by
    intro cnew hid
    refine ⟨w1, fun d hd => Nat.lt_succ_of_lt (w2 d hd), w3,
      fun s hs => Nat.lt_succ_of_lt (w4 s hs), ?_, ?_, w7,
      fun a ha => Nat.lt_succ_of_lt (w8 a ha)⟩
    · rw [List.map_append]
      have : List.map (fun x => x.id) [cnew] = [db.nextId] := by simp [hid]
      rw [this]
      exact nodup_append_fresh w5 (fun i hi => by
        obtain ⟨x, hx, rfl⟩ := List.mem_map.mp hi
        exact w6 x hx)
    · intro x hx
      rcases List.mem_append.mp hx with hx | hx
      · exact Nat.lt_succ_of_lt (w6 x hx)
      · simp only [List.mem_singleton] at hx
        rw [hx, hid]
        exact Nat.lt_succ_self _
  rcases college_goc_cases h with ⟨_, rfl, _⟩ | ⟨_, hc, rfl, _⟩ | ⟨_, rfl, _⟩ | ⟨_, hc, rfl, _⟩
  · exact ⟨w1, w2, w3, w4, w5, w6, w7, w8⟩
  · exact hfresh c (by rw [hc])
  · exact ⟨w1, w2, w3, w4, w5, w6, w7, w8⟩
  · exact hfresh c (by rw [hc])

theorem wf_app_uoc {db : DB} {now : Nat} {st : Student} {col : College}
    {res ty : Option String} {att : Option Bool} {b : Bool} {db2 : DB}
    (h : application_update_or_create db now st col res ty att = .ok (b, db2))
    (hwf : db.WF) : db2.WF := by
  obtain ⟨w1, w2, w3, w4, w5, w6, w7, w8⟩ := hwf
  rcases app_uoc_cases h with ⟨_, rfl, _⟩ | ⟨_, a0, _, rfl⟩
  · refine ⟨w1, fun d hd => Nat.lt_succ_of_lt (w2 d hd), w3,
      fun s hs => Nat.lt_succ_of_lt (w4 s hs), w5,
      fun c hc => Nat.lt_succ_of_lt (w6 c hc), ?_, ?_⟩
    · rw [List.map_append]
      exact nodup_append_fresh w7 (fun i hi => by
        obtain ⟨x, hx, rfl⟩ := List.mem_map.mp hi
        exact w8 x hx)
    · intro x hx
      rcases List.mem_append.mp hx with hx | hx
      · exact Nat.lt_succ_of_lt (w8 x hx)
      · simp only [List.mem_singleton] at hx
        rw [hx]
        exact Nat.lt_succ_self _
  · refine ⟨w1, w2, w3, w4, w5, w6, ?_, ?_⟩
    · have : List.map (fun x => x.id) (db.applications.map (fun x =>
          if x.id = a0.id then
            { x with application_result := res, application_type := ty, attending := att,
                     is_archived := false, archived_at := none, updated_on := now }
          else x)) = List.map (fun x => x.id) db.applications := by
        rw [List.map_map]
        refine List.map_congr_left ?_
        intro x _
        by_cases hx : x.id = a0.id
        · simp [hx]
        · simp [hx]
      rw [this]
      exact w7
    · intro x hx
      obtain ⟨y, hy, rfl⟩ := List.mem_map.mp hx
      by_cases hyy : y.id = a0.id
      · rw [if_pos hyy]
        exact w8 y hy
      · rw [if_neg hyy]
        exact w8 y hy

theorem wf_archive_sweep {now : Nat} {d : District} {touched : List (Nat × Nat)} {db : DB}
    (hwf : db.WF) : (archive_sweep now d touched db).2.WF := by
  obtain ⟨w1, w2, w3, w4, w5, w6, w7, w8⟩ := hwf
  by_cases hcond : ((db.applications.filter
        (fun a => !a.is_archived && app_in_district db d a)).filter
      (fun a => (a.student_id, a.college_id) ∉ touched)).map (fun a => a.id) ≠ []
  case pos =>
    unfold archive_sweep
    rw [if_pos hcond]
    refine ⟨w1, w2, w3, w4, w5, w6, ?_, ?_⟩
    · have : List.map (fun x => x.id) (db.applications.map (fun a =>
          if a.id ∈ ((db.applications.filter
                (fun a => !a.is_archived && app_in_district db d a)).filter
              (fun a => (a.student_id, a.college_id) ∉ touched)).map (fun a => a.id) then
            { a with is_archived := true, archived_at := some now }
          else a)) = List.map (fun x => x.id) db.applications := by
        rw [List.map_map]
        refine List.map_congr_left ?_
        intro x _
        simp only [Function.comp]
        split <;> rfl
      rw [this]
      exact w7
    · intro x hx
      obtain ⟨y, hy, rfl⟩ := List.mem_map.mp hx
      split <;> exact w8 y hy
  case neg =>
    unfold archive_sweep
    rw [if_neg hcond]
    exact ⟨w1, w2, w3, w4, w5, w6, w7, w8⟩

/-- The archive sweep leaves every relation but applications alone, and
rewrites applications pointwise: each record is either untouched — then it
was not a live, in-district, untouched-pair record — or gets exactly
`is_archived := true, archived_at := now` because it was one. -/
theorem archive_sweep_shape (now : Nat) (d : District) (touched : List (Nat × Nat)) (db : DB)
    (hids : (db.applications.map (fun a => a.id)).Nodup) :
    (archive_sweep now d touched db).2.districts = db.districts
  ∧ (archive_sweep now d touched db).2.students = db.students
  ∧ (archive_sweep now d touched db).2.colleges = db.colleges
  ∧ (archive_sweep now d touched db).2.nextId = db.nextId
  ∧ ∃ g : CollegeApplication → CollegeApplication,
      (archive_sweep now d touched db).2.applications = db.applications.map g
      ∧ (∀ x, (g x).id = x.id ∧ (g x).student_id = x.student_id
          ∧ (g x).college_id = x.college_id ∧ (g x).created_on = x.created_on
          ∧ (g x).application_result = x.application_result
          ∧ (g x).application_type = x.application_type
          ∧ (g x).attending = x.attending ∧ (g x).updated_on = x.updated_on)
      ∧ (∀ x ∈ db.applications,
          (g x = x ∧ ¬(x.is_archived = false ∧ app_in_district db d x = true
            ∧ (x.student_id, x.college_id) ∉ touched)) ∨
          (g x = { x with is_archived := true, archived_at := some now }
            ∧ x.is_archived = false ∧ app_in_district db d x = true
            ∧ (x.student_id, x.college_id) ∉ touched)) := by
  have hiff : ∀ x ∈ db.applications,
      (x.id ∈ ((db.applications.filter
            (fun a => !a.is_archived && app_in_district db d a)).filter
          (fun a => (a.student_id, a.college_id) ∉ touched)).map (fun a => a.id))
      ↔ (x.is_archived = false ∧ app_in_district db d x = true
          ∧ (x.student_id, x.college_id) ∉ touched) := by
    intro x hx
    constructor
    · intro hmem
      obtain ⟨b, hb, hbid⟩ := List.mem_map.mp hmem
      obtain ⟨hb1, hb2⟩ := List.mem_filter.mp hb
      obtain ⟨hb0, hb3⟩ := List.mem_filter.mp hb1
      have hba : b = x := List.inj_on_of_nodup_map hids hb0 hx hbid
      subst hba
      rw [Bool.and_eq_true, Bool.not_eq_true'] at hb3
      exact ⟨hb3.1, hb3.2, by simpa using hb2⟩
    · rintro ⟨h1, h2, h3⟩
      refine List.mem_map.mpr ⟨x, List.mem_filter.mpr ⟨List.mem_filter.mpr ⟨hx, ?_⟩, ?_⟩, rfl⟩
      · rw [Bool.and_eq_true, Bool.not_eq_true']
        exact ⟨h1, h2⟩
      · simpa using h3
  by_cases hcond : ((db.applications.filter
        (fun a => !a.is_archived && app_in_district db d a)).filter
      (fun a => (a.student_id, a.college_id) ∉ touched)).map (fun a => a.id) ≠ []
  case pos =>
    unfold archive_sweep
    rw [if_pos hcond]
    refine ⟨rfl, rfl, rfl, rfl,
      (fun a => if a.id ∈ ((db.applications.filter
            (fun a => !a.is_archived && app_in_district db d a)).filter
          (fun a => (a.student_id, a.college_id) ∉ touched)).map (fun a => a.id) then
        { a with is_archived := true, archived_at := some now }
      else a), rfl, ?_, ?_⟩
    · intro x
      by_cases hmem : x.id ∈ ((db.applications.filter
            (fun a => !a.is_archived && app_in_district db d a)).filter
          (fun a => (a.student_id, a.college_id) ∉ touched)).map (fun a => a.id)
      · beta_reduce
        rw [if_pos hmem]
        exact ⟨rfl, rfl, rfl, rfl, rfl, rfl, rfl, rfl⟩
      · beta_reduce
        rw [if_neg hmem]
        exact ⟨rfl, rfl, rfl, rfl, rfl, rfl, rfl, rfl⟩
    · intro x hx
      by_cases hmem : x.id ∈ ((db.applications.filter
            (fun a => !a.is_archived && app_in_district db d a)).filter
          (fun a => (a.student_id, a.college_id) ∉ touched)).map (fun a => a.id)
      · right
        exact ⟨by simp only [hmem, if_true], (hiff x hx).mp hmem⟩
      · left
        exact ⟨by simp only [hmem, if_false], fun hc => hmem ((hiff x hx).mpr hc)⟩
  case neg =>
    unfold archive_sweep
    rw [if_neg hcond]
    rw [not_not] at hcond
    refine ⟨rfl, rfl, rfl, rfl, id, (List.map_id _).symm,
      fun x => ⟨rfl, rfl, rfl, rfl, rfl, rfl, rfl, rfl⟩, ?_⟩
    intro x hx
    left
    refine ⟨rfl, fun hc => ?_⟩
    have := (hiff x hx).mpr hc
    rw [hcond] at this
    cases this

theorem import_core_ok_elim {now : Nat} {csv : Csv} {db : DB} {s : Summary} {dbf : DB}
    (h : import_core now csv db = (.ok s, dbf)) :
    ∃ d bd db1 st,
      district_get_or_create db "SchooLinks" = .ok (d, bd, db1)
      ∧ run_rows now d { db := db1, touched := [], created := 0, updated := 0 }
          (drop_duplicates_keep_last (csv.rows.map normalize_row)) = .ok st
      ∧ s = { total_processed := (drop_duplicates_keep_last (csv.rows.map normalize_row)).length,
              created := st.created, updated := st.updated,
              archived := (archive_sweep now d st.touched st.db).1 }
      ∧ dbf = (archive_sweep now d st.touched st.db).2 := by
  unfold import_core at h
  split at h
  · simp only [Prod.mk.injEq] at h
    cases h.1
  · rename_i d bd db1 heq
    split at h
    · simp only [Prod.mk.injEq] at h
      cases h.1
    · rename_i st heq2
      simp only [Prod.mk.injEq, Except.ok.injEq] at h
      exact ⟨d, bd, db1, st, heq, heq2, h.1.symm, h.2.symm⟩

theorem import_ok_elim {now : Nat} {csv : Csv} {db : DB} {s : Summary} {dbf : DB}
    (h : import_applications_from_csv now csv db = (.ok s, dbf)) :
    required_columns.filter (fun c => c ∉ clean_column_names csv.columns) = []
      ∧ import_core now csv db = (.ok s, dbf) := by
  unfold import_applications_from_csv at h
  by_cases hval : required_columns.filter (fun c => c ∉ clean_column_names csv.columns) ≠ []
  · rw [if_pos hval] at h
    simp only [Prod.mk.injEq] at h
    cases h.1
  · rw [if_neg hval] at h
    rw [not_not] at hval
    exact ⟨hval, h⟩

/-- After a successful district get-or-create, the name filter is the
returned singleton. -/
theorem district_goc_post {db : DB} {nm : String} {d : District} {b : Bool} {db2 : DB}
    (h : district_get_or_create db nm = .ok (d, b, db2)) :
    db2.districts.filter (fun x => x.name = nm) = [d] := by
  rcases district_goc_cases h with ⟨_, rfl, hf⟩ | ⟨_, hd, rfl, hf⟩
  · exact hf
  · show (db.districts ++ [d]).filter (fun x => x.name = nm) = [d]
    rw [List.filter_append, hf, List.nil_append,
        List.filter_cons_of_pos (by rw [hd]; simp)]
    rfl

/-- Everything one loop iteration guarantees: well-formedness is kept,
districts are untouched, students and colleges only grow, the touched list
gains exactly the processed pair — whose application now exists uniquely and
is live — and every already-unique pair filter stays unique, its record's id
and creation time intact, archived flags cleared whenever rewritten. -/
theorem process_row_step_facts {now : Nat} {d : District} {A : LoopState} {r : Row}
    {A2 : LoopState} (h : process_row now d A r = .ok A2) (hWF : A.db.WF) :
    A2.db.WF
  ∧ A2.db.districts = A.db.districts
  ∧ (∀ x ∈ A.db.students, x ∈ A2.db.students)
  ∧ (∀ x ∈ A.db.colleges, x ∈ A2.db.colleges)
  ∧ (∃ sid cid,
      A2.touched = A.touched ++ [(sid, cid)]
      ∧ (∃ a, A2.db.applications.filter (fun x => x.student_id = sid ∧ x.college_id = cid) = [a]
          ∧ a.is_archived = false ∧ a.archived_at = none)
      ∧ A2.created + A2.updated = A.created + A.updated + 1)
  ∧ (∀ (sid cid : Nat) (a : CollegeApplication),
      A.db.applications.filter (fun x => x.student_id = sid ∧ x.college_id = cid) = [a] →
      ∃ a2, A2.db.applications.filter (fun x => x.student_id = sid ∧ x.college_id = cid) = [a2]
        ∧ a2.id = a.id ∧ a2.created_on = a.created_on
        ∧ (a2 = a ∨ (a2.is_archived = false ∧ a2.archived_at = none))) := by
  obtain ⟨s, b1, db1, c, db2, bnew, db3, hs, hc, hu, hst2⟩ := process_row_ok_elim h
  have hWF1 : db1.WF := wf_student_goc hs hWF
  have hWF2 : db2.WF := wf_college_goc hc hWF1
  have hWF3 : db3.WF := wf_app_uoc hu hWF2
  have hfr1 := student_goc_frame hs
  have hfr2 := college_goc_frame hc
  have hfr3 := app_uoc_frame hu
  have happ2 : db2.applications = A.db.applications := by rw [hfr2.2.2, hfr1.2.2]
  subst hst2
  refine ⟨hWF3, ?_, ?_, ?_, ?_, ?_⟩
  · show db3.districts = A.db.districts
    rw [hfr3.1, hfr2.1, hfr1.1]
  · show ∀ x ∈ A.db.students, x ∈ db3.students
    intro x hx
    rw [hfr3.2.1, hfr2.2.1]
    rcases student_goc_cases hs with ⟨_, rfl, _⟩ | ⟨_, _, rfl, _⟩
    · exact hx
    · exact List.mem_append.mpr (Or.inl hx)
  · show ∀ x ∈ A.db.colleges, x ∈ db3.colleges
    intro x hx
    rw [hfr3.2.2]
    have hx1 : x ∈ db1.colleges := by rw [hfr1.2.1]; exact hx
    rcases college_goc_cases hc with ⟨_, rfl, _⟩ | ⟨_, _, rfl, _⟩ | ⟨_, rfl, _⟩ | ⟨_, _, rfl, _⟩
    · exact hx1
    · exact List.mem_append.mpr (Or.inl hx1)
    · exact hx1
    · exact List.mem_append.mpr (Or.inl hx1)
  · refine ⟨s.id, c.id, rfl, ?_, ?_⟩
    · show ∃ a, db3.applications.filter
          (fun x => x.student_id = s.id ∧ x.college_id = c.id) = [a]
        ∧ a.is_archived = false ∧ a.archived_at = none
      rcases app_uoc_cases hu with ⟨_, hdb3, hfil⟩ | ⟨_, a0, hfil, hdb3⟩
      · subst hdb3
        refine ⟨{ id := db2.nextId, student_id := s.id, college_id := c.id,
                  application_result := none_if_empty r.application_result,
                  application_type := none_if_empty r.application_type,
                  attending := nan_to_none r.attending_parsed,
                  is_archived := false, archived_at := none,
                  created_on := now, updated_on := now }, ?_, rfl, rfl⟩
        show (db2.applications ++ [_]).filter _ = _
        rw [List.filter_append, hfil, List.nil_append,
            List.filter_cons_of_pos (by simp)]
        rfl
      · subst hdb3
        obtain ⟨pre, post, hsplit, hpre, hpost, hpa, hmap⟩ :=
          map_overwrite_by_id (fun x =>
            { x with application_result := none_if_empty r.application_result,
                     application_type := none_if_empty r.application_type,
                     attending := nan_to_none r.attending_parsed,
                     is_archived := false, archived_at := none, updated_on := now })
            hWF2.2.2.2.2.2.2.1 hfil
        refine ⟨{ a0 with
                  application_result := none_if_empty r.application_result,
                  application_type := none_if_empty r.application_type,
                  attending := nan_to_none r.attending_parsed,
                  is_archived := false, archived_at := none, updated_on := now },
            ?_, rfl, rfl⟩
        show (db2.applications.map _).filter _ = _
        rw [hmap, List.filter_append,
            List.filter_eq_nil_iff.mpr (by intro x hx; simpa using hpre x hx),
            List.nil_append,
            List.filter_cons_of_pos (by simpa using hpa),
            List.filter_eq_nil_iff.mpr (by intro x hx; simpa using hpost x hx)]
    · show (if bnew then A.created + 1 else A.created)
          + (if bnew then A.updated else A.updated + 1) = A.created + A.updated + 1
      cases bnew <;> simp <;> omega
  · intro sid cid a hfa
    show ∃ a2, db3.applications.filter
        (fun x => x.student_id = sid ∧ x.college_id = cid) = [a2]
      ∧ a2.id = a.id ∧ a2.created_on = a.created_on
      ∧ (a2 = a ∨ (a2.is_archived = false ∧ a2.archived_at = none))
    have hfa2 : db2.applications.filter
        (fun x => x.student_id = sid ∧ x.college_id = cid) = [a] := by
      rw [happ2]; exact hfa
    rcases app_uoc_cases hu with ⟨_, hdb3, hfil⟩ | ⟨_, a0, hfil, hdb3⟩
    · subst hdb3
      refine ⟨a, ?_, rfl, rfl, Or.inl rfl⟩
      show (db2.applications ++ [_]).filter _ = _
      rw [List.filter_append, hfa2]
      have hnew : List.filter (fun x => x.student_id = sid ∧ x.college_id = cid)
          [({ id := db2.nextId, student_id := s.id, college_id := c.id,
              application_result := none_if_empty r.application_result,
              application_type := none_if_empty r.application_type,
              attending := nan_to_none r.attending_parsed,
              is_archived := false, archived_at := none,
              created_on := now, updated_on := now } : CollegeApplication)] = [] := by
        by_cases hp : s.id = sid ∧ c.id = cid
        · obtain ⟨hp1, hp2⟩ := hp
          subst hp1
          subst hp2
          rw [hfil] at hfa2
          cases hfa2
        · rw [List.filter_cons_of_neg (by simpa using hp), List.filter_nil]
      rw [hnew, List.append_nil]
    · subst hdb3
      have hcomm := filter_map_pair_preserving
        (fun x => if x.id = a0.id then
          { x with application_result := none_if_empty r.application_result,
                   application_type := none_if_empty r.application_type,
                   attending := nan_to_none r.attending_parsed,
                   is_archived := false, archived_at := none, updated_on := now }
        else x)
        (fun x => ⟨by by_cases hxx : x.id = a0.id <;> simp [hxx],
                   by by_cases hxx : x.id = a0.id <;> simp [hxx]⟩)
        db2.applications sid cid
      rw [hcomm, hfa2]
      by_cases hida : a.id = a0.id
      · refine ⟨{ a with
                  application_result := none_if_empty r.application_result,
                  application_type := none_if_empty r.application_type,
                  attending := nan_to_none r.attending_parsed,
                  is_archived := false, archived_at := none, updated_on := now },
            ?_, rfl, rfl, Or.inr ⟨rfl, rfl⟩⟩
        simp only [List.map_cons, List.map_nil, if_pos hida]
      · refine ⟨a, ?_, rfl, rfl, Or.inl rfl⟩
        simp only [List.map_cons, List.map_nil, if_neg hida]
/-- The step facts, folded over the whole row loop. -/
theorem run_rows_facts {now : Nat} {d : District} :
    ∀ {rows : List Row} {A A2 : LoopState},
    run_rows now d A rows = .ok A2 → A.db.WF →
    A2.db.WF
  ∧ A2.db.districts = A.db.districts
  ∧ (∀ x ∈ A.db.students, x ∈ A2.db.students)
  ∧ (∀ x ∈ A.db.colleges, x ∈ A2.db.colleges)
  ∧ (∀ (sid cid : Nat) (a : CollegeApplication),
      A.db.applications.filter (fun x => x.student_id = sid ∧ x.college_id = cid) = [a] →
      ∃ a2, A2.db.applications.filter (fun x => x.student_id = sid ∧ x.college_id = cid) = [a2]
        ∧ a2.id = a.id ∧ a2.created_on = a.created_on
        ∧ (a2 = a ∨ (a2.is_archived = false ∧ a2.archived_at = none)))
  ∧ A2.created + A2.updated = A.created + A.updated + rows.length
  ∧ (∀ p ∈ A2.touched, p ∈ A.touched ∨
      ∃ a, A2.db.applications.filter
          (fun x => x.student_id = p.1 ∧ x.college_id = p.2) = [a]
        ∧ a.is_archived = false ∧ a.archived_at = none) := by
  intro rows
  induction rows with
  | nil =>
    intro A A2 h hWF
    rw [run_rows_nil] at h
    obtain rfl := (Except.ok.inj h)
    exact ⟨hWF, rfl, fun x hx => hx, fun x hx => hx,
      fun sid cid a ha => ⟨a, ha, rfl, rfl, Or.inl rfl⟩,
      by simp, fun p hp => Or.inl hp⟩
  | cons r rest ih =>
    intro A A2 h hWF
    obtain ⟨A1, hstep, hrest⟩ := run_rows_cons_elim h
    obtain ⟨sWF1, sDis, sStu, sCol, ⟨sid0, cid0, sTch, ⟨anew, hanew, hanewf1, hanewf2⟩, sCnt⟩, sStab⟩ :=
      process_row_step_facts hstep hWF
    obtain ⟨iWF, iDis, iStu, iCol, iStab, iCnt, iTch⟩ := ih hrest sWF1
    refine ⟨iWF, by rw [iDis, sDis], fun x hx => iStu x (sStu x hx),
      fun x hx => iCol x (sCol x hx), ?_, ?_, ?_⟩
    · intro sid cid a ha
      obtain ⟨a1, ha1, ha1id, ha1cr, ha1or⟩ := sStab sid cid a ha
      obtain ⟨a2, ha2, ha2id, ha2cr, ha2or⟩ := iStab sid cid a1 ha1
      refine ⟨a2, ha2, by rw [ha2id, ha1id], by rw [ha2cr, ha1cr], ?_⟩
      rcases ha1or with rfl | hf1
      · exact ha2or
      · rcases ha2or with rfl | hf2
        · exact Or.inr hf1
        · exact Or.inr hf2
    · rw [iCnt, sCnt, List.length_cons]
      omega
    · intro p hp
      rcases iTch p hp with hp1 | hp2
      · rw [sTch] at hp1
        rcases List.mem_append.mp hp1 with hp1 | hp1
        · exact Or.inl hp1
        · right
          simp only [List.mem_singleton] at hp1
          subst hp1
          obtain ⟨a2, ha2, _, _, ha2or⟩ := iStab sid0 cid0 anew hanew
          refine ⟨a2, ha2, ?_⟩
          rcases ha2or with rfl | hf2
          · exact ⟨hanewf1, hanewf2⟩
          · exact hf2
      · exact Or.inr hp2

theorem singleton_filter_elim {α : Type} {p : α → Bool} {l : List α} {a : α}
    (h : l.filter p = [a]) : a ∈ l ∧ p a = true := by
  have hmem : a ∈ l.filter p := by rw [h]; simp
  exact ⟨List.mem_of_mem_filter hmem, (List.mem_filter.mp hmem).2⟩

/-- A student lookup that could match an existing record takes the found
path and returns exactly that record. -/
theorem student_goc_found {db : DB} {district : District} {sn : String}
    {s2 : Student} {b2 : Bool} {db2 : DB} {s1 : Student}
    (h : student_get_or_create db district sn = .ok (s2, b2, db2))
    (hmem : s1 ∈ db.students) (hd : s1.district_id = district.id)
    (hsn : s1.student_number = sn) :
    s2 = s1 ∧ b2 = false ∧ db2 = db := by
  have hin : s1 ∈ db.students.filter
      (fun x => x.district_id = district.id ∧ x.student_number = sn) :=
    List.mem_filter.mpr ⟨hmem, by simp [hd, hsn]⟩
  rcases student_goc_cases h with ⟨hb, rfl, hfil⟩ | ⟨_, _, _, hfil⟩
  · rw [hfil] at hin
    simp only [List.mem_singleton] at hin
    exact ⟨hin.symm, hb, rfl⟩
  · rw [hfil] at hin
    cases hin

/-- A ceeb-keyed college lookup that could match takes the found path. -/
theorem college_goc_found_ceeb {db : DB} {ceeb cname : String} {c2 : College} {db2 : DB}
    {c1 : College} (h : get_or_create_college db ceeb cname = .ok (c2, db2))
    (hne : py_strip ceeb ≠ "") (hmem : c1 ∈ db.colleges)
    (hcc : c1.ceeb_code = py_strip ceeb) :
    c2 = c1 ∧ db2 = db := by
  have hin : c1 ∈ db.colleges.filter (fun x => x.ceeb_code = py_strip ceeb) :=
    List.mem_filter.mpr ⟨hmem, by simp [hcc]⟩
  rcases college_goc_cases h with ⟨_, rfl, hfil⟩ | ⟨_, _, _, hfil⟩
    | ⟨heq, _, _⟩ | ⟨heq, _, _, _⟩
  · rw [hfil] at hin
    simp only [List.mem_singleton] at hin
    exact ⟨hin.symm, rfl⟩
  · rw [hfil] at hin
    cases hin
  · exact absurd heq hne
  · exact absurd heq hne

/-- A name-keyed college lookup that could match takes the found path. -/
theorem college_goc_found_name {db : DB} {ceeb cname : String} {c2 : College} {db2 : DB}
    {c1 : College} (h : get_or_create_college db ceeb cname = .ok (c2, db2))
    (heq : py_strip ceeb = "") (hmem : c1 ∈ db.colleges)
    (hcn : c1.name = py_strip cname) :
    c2 = c1 ∧ db2 = db := by
  have hin : c1 ∈ db.colleges.filter (fun x => x.name = py_strip cname) :=
    List.mem_filter.mpr ⟨hmem, by simp [hcn]⟩
  rcases college_goc_cases h with ⟨hne, _, _⟩ | ⟨hne, _, _, _⟩
    | ⟨_, rfl, hfil⟩ | ⟨_, _, _, hfil⟩
  · exact absurd heq hne
  · exact absurd heq hne
  · rw [hfil] at hin
    simp only [List.mem_singleton] at hin
    exact ⟨hin.symm, rfl⟩
  · rw [hfil] at hin
    cases hin

/-- What one loop iteration resolves: the processed pair is appended to the
touched list, its student and college carry the row's lookup keys and are
members afterwards, the pair's application filter is the singleton holding
the row's values, and every other pair's filter is exactly preserved. -/
theorem process_row_resolution {now : Nat} {d : District} {A : LoopState} {r : Row}
    {A2 : LoopState} (h : process_row now d A r = .ok A2) (hWF : A.db.WF) :
    ∃ s c, A2.touched = A.touched ++ [(s.id, c.id)]
      ∧ s.district_id = d.id ∧ s.student_number = r.student_number ∧ s ∈ A2.db.students
      ∧ c ∈ A2.db.colleges
      ∧ ((py_strip r.ceeb_code ≠ "" ∧ c.ceeb_code = py_strip r.ceeb_code)
          ∨ (py_strip r.ceeb_code = "" ∧ c.name = py_strip r.college_name))
      ∧ (∃ a1, A2.db.applications.filter
            (fun x => x.student_id = s.id ∧ x.college_id = c.id) = [a1]
          ∧ a1.application_result = none_if_empty r.application_result
          ∧ a1.application_type = none_if_empty r.application_type
          ∧ a1.attending = nan_to_none r.attending_parsed
          ∧ a1.is_archived = false ∧ a1.archived_at = none)
      ∧ (∀ sid cid : Nat, ¬(sid = s.id ∧ cid = c.id) →
          A2.db.applications.filter (fun x => x.student_id = sid ∧ x.college_id = cid)
            = A.db.applications.filter (fun x => x.student_id = sid ∧ x.college_id = cid)) := by
  obtain ⟨s, b1, db1, c, db2, bnew, db3, hs, hc, hu, hst2⟩ := process_row_ok_elim h
  have hWF1 : db1.WF := wf_student_goc hs hWF
  have hWF2 : db2.WF := wf_college_goc hc hWF1
  have hfr1 := student_goc_frame hs
  have hfr2 := college_goc_frame hc
  have hfr3 := app_uoc_frame hu
  have happ2 : db2.applications = A.db.applications := by rw [hfr2.2.2, hfr1.2.2]
  subst hst2
  refine ⟨s, c, rfl, ?_, ?_, ?_, ?_, ?_, ?_, ?_⟩
  · rcases student_goc_cases hs with ⟨_, rfl, hfil⟩ | ⟨_, hsv, rfl, _⟩
    · have := (singleton_filter_elim hfil).2
      simp only [decide_eq_true_eq] at this
      exact this.1
    · rw [hsv]
  · rcases student_goc_cases hs with ⟨_, rfl, hfil⟩ | ⟨_, hsv, rfl, _⟩
    · have := (singleton_filter_elim hfil).2
      simp only [decide_eq_true_eq] at this
      exact this.2
    · rw [hsv]
  · show s ∈ db3.students
    rw [hfr3.2.1, hfr2.2.1]
    rcases student_goc_cases hs with ⟨_, rfl, hfil⟩ | ⟨_, _, rfl, _⟩
    · exact (singleton_filter_elim hfil).1
    · exact List.mem_append.mpr (Or.inr (by simp))
  · show c ∈ db3.colleges
    rw [hfr3.2.2]
    rcases college_goc_cases hc with ⟨_, rfl, hfil⟩ | ⟨_, _, rfl, _⟩
      | ⟨_, rfl, hfil⟩ | ⟨_, _, rfl, _⟩
    · exact (singleton_filter_elim hfil).1
    · exact List.mem_append.mpr (Or.inr (by simp))
    · exact (singleton_filter_elim hfil).1
    · exact List.mem_append.mpr (Or.inr (by simp))
  · rcases college_goc_cases hc with ⟨hne, rfl, hfil⟩ | ⟨hne, hcv, rfl, _⟩
      | ⟨heq, rfl, hfil⟩ | ⟨heq, hcv, rfl, _⟩
    · left
      refine ⟨hne, ?_⟩
      have := (singleton_filter_elim hfil).2
      simpa using this
    · left
      exact ⟨hne, by rw [hcv]⟩
    · right
      refine ⟨heq, ?_⟩
      have := (singleton_filter_elim hfil).2
      simpa using this
    · right
      exact ⟨heq, by rw [hcv]⟩
  · rcases app_uoc_cases hu with ⟨_, hdb3, hfil⟩ | ⟨_, a0, hfil, hdb3⟩
    · subst hdb3
      refine ⟨{ id := db2.nextId, student_id := s.id, college_id := c.id,
                application_result := none_if_empty r.application_result,
                application_type := none_if_empty r.application_type,
                attending := nan_to_none r.attending_parsed,
                is_archived := false, archived_at := none,
                created_on := now, updated_on := now },
          ?_, rfl, rfl, rfl, rfl, rfl⟩
      show (db2.applications ++ [_]).filter _ = _
      rw [List.filter_append, hfil, List.nil_append,
          List.filter_cons_of_pos (by simp)]
      rfl
    · subst hdb3
      obtain ⟨pre, post, hsplit, hpre, hpost, hpa, hmap⟩ :=
        map_overwrite_by_id (fun x =>
          { x with application_result := none_if_empty r.application_result,
                   application_type := none_if_empty r.application_type,
                   attending := nan_to_none r.attending_parsed,
                   is_archived := false, archived_at := none, updated_on := now })
          hWF2.2.2.2.2.2.2.1 hfil
      refine ⟨{ a0 with
                application_result := none_if_empty r.application_result,
                application_type := none_if_empty r.application_type,
                attending := nan_to_none r.attending_parsed,
                is_archived := false, archived_at := none, updated_on := now },
          ?_, rfl, rfl, rfl, rfl, rfl⟩
      show (db2.applications.map _).filter _ = _
      rw [hmap, List.filter_append,
          List.filter_eq_nil_iff.mpr (by intro x hx; simpa using hpre x hx),
          List.nil_append,
          List.filter_cons_of_pos (by simpa using hpa),
          List.filter_eq_nil_iff.mpr (by intro x hx; simpa using hpost x hx)]
  · intro sid cid hq
    rcases app_uoc_cases hu with ⟨_, hdb3, hfil⟩ | ⟨_, a0, hfil, hdb3⟩
    · subst hdb3
      show (db2.applications ++ [_]).filter _ = _
      rw [List.filter_append,
          List.filter_cons_of_neg (by simpa using fun h1 h2 => hq ⟨h1.symm, h2.symm⟩),
          List.filter_nil, List.append_nil, happ2]
    · subst hdb3
      have hcomm := filter_map_pair_preserving
        (fun x => if x.id = a0.id then
          { x with application_result := none_if_empty r.application_result,
                   application_type := none_if_empty r.application_type,
                   attending := nan_to_none r.attending_parsed,
                   is_archived := false, archived_at := none, updated_on := now }
        else x)
        (fun x => ⟨by by_cases hxx : x.id = a0.id <;> simp [hxx],
                   by by_cases hxx : x.id = a0.id <;> simp [hxx]⟩)
        db2.applications sid cid
      show (db2.applications.map _).filter _ = _
      rw [hcomm, happ2]
      refine map_ite_id_of_ne ?_
      intro x hx hxid
      have hx0 : x ∈ A.db.applications := List.mem_of_mem_filter hx
      have ha0 : a0 ∈ db2.applications := by
        have : a0 ∈ db2.applications.filter
            (fun x => x.student_id = s.id ∧ x.college_id = c.id) := by
          rw [hfil]; simp
        exact List.mem_of_mem_filter this
      rw [happ2] at ha0
      have hxa0 : x = a0 :=
        List.inj_on_of_nodup_map hWF.2.2.2.2.2.2.1 hx0 ha0 hxid
      subst hxa0
      have h1 := (List.mem_filter.mp hx).2
      have h2 : x ∈ db2.applications.filter
          (fun y => y.student_id = s.id ∧ y.college_id = c.id) := by
        rw [hfil]; simp
      have h3 := (List.mem_filter.mp h2).2
      simp only [decide_eq_true_eq] at h1 h3
      exact hq ⟨by rw [← h1.1, h3.1], by rw [← h1.2, h3.2]⟩

/-- One parallel step: when the first run processed row `r` from A to A1 on
its way to `Afin`, replaying `r` on the corresponding replay state B keeps
the simulation. -/
theorem parallel_step {now1 now2 : Nat} {d : District} {db1 : DB} {Afin : LoopState}
    (hWFdb1 : db1.WF)
    (ht1 : ∀ x ∈ Afin.db.students, x ∈ db1.students)
    (ht2 : ∀ x ∈ Afin.db.colleges, x ∈ db1.colleges)
    (ht3 : ∀ (sid cid : Nat) (a : CollegeApplication),
        Afin.db.applications.filter (fun x => x.student_id = sid ∧ x.college_id = cid) = [a] →
        ∃ a2, db1.applications.filter (fun x => x.student_id = sid ∧ x.college_id = cid) = [a2])
    {r : Row} {rest : List Row} {A A1 B B1 : LoopState}
    (hstep1 : process_row now1 d A r = .ok A1)
    (hrest1 : run_rows now1 d A1 rest = .ok Afin)
    (hstep2 : process_row now2 d B r = .ok B1)
    (hsim : run2_sim db1 now2 A B) :
    run2_sim db1 now2 A1 B1 := by
  obtain ⟨hBd, hBs, hBc, hBn, hTch, hCr, hUp, hAWF, f, hfmap, hfpres, hfold, hftch⟩ := hsim
  obtain ⟨s1, c1, hA1tch, hs1d, hs1n, hs1mem, hc1mem, hkey,
    ⟨a1, ha1fil, ha1r, ha1t, ha1a, ha1arch, ha1at⟩, hpres⟩ :=
    process_row_resolution hstep1 hAWF
  have hsf := process_row_step_facts hstep1 hAWF
  have hA1WF : A1.db.WF := hsf.1
  obtain ⟨sid9, cid9, htch9, _, hcnt1⟩ := hsf.2.2.2.2.1
  have hcnt1 : A1.created + A1.updated = A.created + A.updated + 1 := hcnt1
  have hrf := run_rows_facts hrest1 hA1WF
  have hs1db1 : s1 ∈ db1.students := ht1 s1 (hrf.2.2.1 s1 hs1mem)
  have hc1db1 : c1 ∈ db1.colleges := ht2 c1 (hrf.2.2.2.1 c1 hc1mem)
  obtain ⟨afin9, hafin9, _, _, _⟩ := hrf.2.2.2.2.1 s1.id c1.id a1 ha1fil
  obtain ⟨x1, hx1fil⟩ := ht3 s1.id c1.id afin9 hafin9
  have hx1mem : x1 ∈ db1.applications := (singleton_filter_elim hx1fil).1
  have hx1p : x1.student_id = s1.id ∧ x1.college_id = c1.id := by
    have := (singleton_filter_elim hx1fil).2
    simpa using this
  obtain ⟨s2, b2, db21, c2, db22, bn2, db23, hs2, hc2, hu2, hB1⟩ := process_row_ok_elim hstep2
  obtain ⟨hs2eq, hb2, hdb21⟩ :=
    student_goc_found hs2 (by rw [hBs]; exact hs1db1) hs1d hs1n
  have hs2eq2 : s1 = s2 := hs2eq.symm
  subst hs2eq2
  subst hdb21
  have hcol : c2 = c1 ∧ db22 = B.db := by
    rcases hkey with ⟨hne, hcc⟩ | ⟨heq, hcn⟩
    · exact college_goc_found_ceeb hc2 hne (by rw [hBc]; exact hc1db1) hcc
    · exact college_goc_found_name hc2 heq (by rw [hBc]; exact hc1db1) hcn
  have hc2eq2 : c1 = c2 := hcol.1.symm
  have hdb22 := hcol.2
  subst hc2eq2
  subst hdb22
  have hBfil : B.db.applications.filter
      (fun x => x.student_id = s1.id ∧ x.college_id = c1.id) = [f x1] := by
    rw [hfmap, filter_map_pair_preserving f
        (fun x => ⟨(hfpres x).2.1, (hfpres x).2.2.1⟩) db1.applications s1.id c1.id,
      hx1fil, List.map_cons, List.map_nil]
  rcases app_uoc_cases hu2 with ⟨_, _, hfil2⟩ | ⟨hbn2, b0, hfil2, hdb23⟩
  · rw [hfil2] at hBfil
    cases hBfil
  · have hb0 : b0 = f x1 := by
      rw [hfil2] at hBfil
      exact (List.cons.inj hBfil).1
    have hb0id : b0.id = x1.id := by rw [hb0]; exact (hfpres x1).1
    subst hB1
    unfold run2_sim
    refine ⟨?_, ?_, ?_, ?_, ?_, ?_, ?_, hA1WF, ?_⟩
    · show db23.districts = db1.districts
      rw [hdb23]
      exact hBd
    · show db23.students = db1.students
      rw [hdb23]
      exact hBs
    · show db23.colleges = db1.colleges
      rw [hdb23]
      exact hBc
    · show db23.nextId = db1.nextId
      rw [hdb23]
      exact hBn
    · show B.touched ++ [(s1.id, c1.id)] = A1.touched
      rw [hA1tch, hTch]
    · show (if bn2 then B.created + 1 else B.created) = 0
      rw [hbn2, if_neg (by simp), hCr]
    · show (if bn2 then B.updated else B.updated + 1) = A1.created + A1.updated
      rw [hbn2, if_neg (by simp), hUp, hcnt1]
    · refine ⟨(fun x => if x.id = b0.id then
          { x with application_result := none_if_empty r.application_result,
                   application_type := none_if_empty r.application_type,
                   attending := nan_to_none r.attending_parsed,
                   is_archived := false, archived_at := none,
                   updated_on := now2 }
        else x) ∘ f, ?_, ?_, ?_, ?_⟩
      · show db23.applications = _
        rw [hdb23]
        show B.db.applications.map _ = _
        rw [hfmap, List.map_map]
      · intro x
        obtain ⟨h1, h2, h3, h4⟩ := hfpres x
        simp only [Function.comp]
        by_cases hxx : (f x).id = b0.id
        · rw [if_pos hxx]
          exact ⟨h1, h2, h3, h4⟩
        · rw [if_neg hxx]
          exact ⟨h1, h2, h3, h4⟩
      · intro x hx hnt
        rw [hA1tch] at hnt
        have hntA : (x.student_id, x.college_id) ∉ A.touched := by
          intro hmem
          exact hnt (List.mem_append.mpr (Or.inl hmem))
        have hnp : ¬(x.student_id = s1.id ∧ x.college_id = c1.id) := by
          intro ⟨hp1, hp2⟩
          exact hnt (List.mem_append.mpr (Or.inr (by simp [hp1, hp2])))
        have hfx : f x = x := hfold x hx hntA
        have hxid : ¬ x.id = b0.id := by
          intro hxe
          rw [hb0id] at hxe
          have := List.inj_on_of_nodup_map hWFdb1.2.2.2.2.2.2.1 hx hx1mem hxe
          rw [this] at hnp
          exact hnp ⟨hx1p.1, hx1p.2⟩
        simp only [Function.comp]
        rw [hfx, if_neg hxid]
      · intro x hx htc
        by_cases hp : x.student_id = s1.id ∧ x.college_id = c1.id
        · have hxx1 : x = x1 := by
            have : x ∈ db1.applications.filter
                (fun y => y.student_id = s1.id ∧ y.college_id = c1.id) :=
              List.mem_filter.mpr ⟨hx, by simp [hp.1, hp.2]⟩
            rw [hx1fil] at this
            simpa using this
          refine ⟨a1, ?_, ?_⟩
          · rw [hp.1, hp.2]
            exact ha1fil
          · subst hxx1
            have hfid : x.id = b0.id := by rw [hb0id]
            obtain ⟨h1, h2, h3, h4⟩ := hfpres x
            simp only [Function.comp]
            rw [if_pos (by rw [h1]; exact hfid), ha1r, ha1t, ha1a,
                CollegeApplication.mk.injEq]
            exact ⟨h1, h2, h3, rfl, rfl, rfl, rfl, rfl, h4, rfl⟩
        · rw [hA1tch] at htc
          have htcA : (x.student_id, x.college_id) ∈ A.touched := by
            rcases List.mem_append.mp htc with h | h
            · exact h
            · simp only [List.mem_singleton, Prod.mk.injEq] at h
              exact absurd ⟨h.1, h.2⟩ hp
          obtain ⟨a, hafil, hfx⟩ := hftch x hx htcA
          refine ⟨a, ?_, ?_⟩
          · rw [hpres x.student_id x.college_id hp]
            exact hafil
          · have hxid : ¬ x.id = b0.id := by
              intro hxe
              rw [hb0id] at hxe
              have := List.inj_on_of_nodup_map hWFdb1.2.2.2.2.2.2.1 hx hx1mem hxe
              rw [this] at hp
              exact hp ⟨hx1p.1, hx1p.2⟩
            have hfxid : (f x).id = x.id := (hfpres x).1
            simp only [Function.comp]
            rw [if_neg (by rw [hfxid]; exact hxid)]
            exact hfx

/-- Replaying a whole successful loop over its own final database keeps the
simulation from start to end. -/
theorem parallel_runs {now1 now2 : Nat} {d : District} {db1 : DB} {Afin : LoopState}
    (hWFdb1 : db1.WF)
    (ht1 : ∀ x ∈ Afin.db.students, x ∈ db1.students)
    (ht2 : ∀ x ∈ Afin.db.colleges, x ∈ db1.colleges)
    (ht3 : ∀ (sid cid : Nat) (a : CollegeApplication),
        Afin.db.applications.filter (fun x => x.student_id = sid ∧ x.college_id = cid) = [a] →
        ∃ a2, db1.applications.filter (fun x => x.student_id = sid ∧ x.college_id = cid) = [a2]) :
    ∀ {rows : List Row} {A B Bfin : LoopState},
    run_rows now1 d A rows = .ok Afin →
    run_rows now2 d B rows = .ok Bfin →
    run2_sim db1 now2 A B →
    run2_sim db1 now2 Afin Bfin := by
  intro rows
  induction rows with
  | nil =>
    intro A B Bfin h1 h2 hsim
    rw [run_rows_nil] at h1 h2
    obtain rfl := Except.ok.inj h1
    obtain rfl := Except.ok.inj h2
    exact hsim
  | cons r rest ih =>
    intro A B Bfin h1 h2 hsim
    obtain ⟨A1, hstep1, hrest1⟩ := run_rows_cons_elim h1
    obtain ⟨B1, hstep2, hrest2⟩ := run_rows_cons_elim h2
    exact ih hrest1 hrest2
      (parallel_step hWFdb1 ht1 ht2 ht3 hstep1 hrest1 hstep2 hsim)

theorem app_in_district_congr {db db2 : DB} {d : District} {x y : CollegeApplication}
    (hs : db2.students = db.students) (hxy : y.student_id = x.student_id) :
    app_in_district db2 d y = app_in_district db d x := by
  unfold app_in_district
  rw [hs, hxy]

/-! ### C8: importing the same file twice -/

/-- C8 (amended): when both runs of the same file complete successfully, the
second returns the summary created = 0, updated = N, archived = 0 with
N = s1.total_processed (the dedup row count), and leaves every persisted
value unchanged — except that updated_on of the re-upserted applications
moves to the second run's clock, because update_or_create saves the row
again and `updated_on` carries `auto_now`. -/
theorem import_idempotent
    (now1 now2 : Nat) (csv : Csv) (db0 : DB) (s1 : Summary) (db1 : DB)
    (s2 : Summary) (db2 : DB)
    (hwf : db0.WF)
    (h1 : import_applications_from_csv now1 csv db0 = (.ok s1, db1))
    (h2 : import_applications_from_csv now2 csv db1 = (.ok s2, db2)) :
    s2 = { total_processed := s1.total_processed, created := 0,
           updated := s1.total_processed, archived := 0 }
  ∧ db2.districts = db1.districts ∧ db2.students = db1.students
  ∧ db2.colleges = db1.colleges ∧ db2.nextId = db1.nextId
  ∧ ∃ T : List (Nat × Nat), db2.applications = db1.applications.map (fun a =>
      if (a.student_id, a.college_id) ∈ T then { a with updated_on := now2 } else a) := by
  obtain ⟨hval, hcore1⟩ := import_ok_elim h1
  obtain ⟨_, hcore2⟩ := import_ok_elim h2
  obtain ⟨d, bd, db0d, Afin, hd1, hrun1, hs1, hdb1⟩ := import_core_ok_elim hcore1
  obtain ⟨d2, bd2, db1d, Bfin, hd2, hrun2, hs2, hdb2⟩ := import_core_ok_elim hcore2
  have hWF0d : db0d.WF := wf_district_goc hd1 hwf
  have hrf1 := run_rows_facts hrun1 hWF0d
  have hAfinWF : Afin.db.WF := hrf1.1
  have hsw := archive_sweep_shape now1 d Afin.touched Afin.db hAfinWF.2.2.2.2.2.2.1
  have hdb1WF : db1.WF := by rw [hdb1]; exact wf_archive_sweep hAfinWF
  obtain ⟨g, hgmap, hgpres, hgcases⟩ := hsw.2.2.2.2
  have hdb1stu : db1.students = Afin.db.students := by rw [hdb1]; exact hsw.2.1
  have hdb1col : db1.colleges = Afin.db.colleges := by rw [hdb1]; exact hsw.2.2.1
  have hdb1dis : db1.districts = Afin.db.districts := by rw [hdb1]; exact hsw.1
  have hdb1nid : db1.nextId = Afin.db.nextId := by rw [hdb1]; exact hsw.2.2.2.1
  have hdb1app : db1.applications = Afin.db.applications.map g := by rw [hdb1]; exact hgmap
  -- the run district is the unique "SchooLinks" district of db1
  have hdfil1 : db1.districts.filter (fun x => x.name = "SchooLinks") = [d] := by
    rw [hdb1dis, hrf1.2.1]
    exact district_goc_post hd1
  have hdd : d = d2 ∧ db1 = db1d := by
    rcases district_goc_cases hd2 with ⟨_, hsame, hfil⟩ | ⟨_, _, _, hfil⟩
    · rw [hdfil1] at hfil
      exact ⟨List.cons.inj hfil |>.1, hsame.symm⟩
    · rw [hdfil1] at hfil
      cases hfil
  obtain ⟨hdd1, hdd2⟩ := hdd
  subst hdd1
  subst hdd2
  -- transfer hypotheses for the simulation
  have ht1 : ∀ x ∈ Afin.db.students, x ∈ db1.students := by
    rw [hdb1stu]; exact fun x hx => hx
  have ht2 : ∀ x ∈ Afin.db.colleges, x ∈ db1.colleges := by
    rw [hdb1col]; exact fun x hx => hx
  have ht3 : ∀ (sid cid : Nat) (a : CollegeApplication),
      Afin.db.applications.filter (fun x => x.student_id = sid ∧ x.college_id = cid) = [a] →
      ∃ a2, db1.applications.filter
        (fun x => x.student_id = sid ∧ x.college_id = cid) = [a2] := by
    intro sid cid a ha
    refine ⟨g a, ?_⟩
    rw [hdb1app, filter_map_pair_preserving g
        (fun x => ⟨(hgpres x).2.1, (hgpres x).2.2.1⟩) Afin.db.applications sid cid,
      ha, List.map_cons, List.map_nil]
  have hsim0 : run2_sim db1 now2
      { db := db0d, touched := [], created := 0, updated := 0 }
      { db := db1, touched := [], created := 0, updated := 0 } :=
    ⟨rfl, rfl, rfl, rfl, rfl, rfl, rfl, hWF0d, id, (List.map_id _).symm,
     fun x => ⟨rfl, rfl, rfl, rfl⟩, fun x _ _ => rfl,
     fun x _ hx => absurd hx (List.not_mem_nil _)⟩
  obtain ⟨hBd, hBs, hBc, hBn, hTch, hCr, hUp, _, f, hfmap, hfpres, hfold, hftch⟩ :=
    parallel_runs hdb1WF ht1 ht2 ht3 hrun1 hrun2 hsim0
  -- touched pairs carry a live singleton at the end of run 1
  have htchflags : ∀ p ∈ Afin.touched,
      ∃ a, Afin.db.applications.filter
          (fun x => x.student_id = p.1 ∧ x.college_id = p.2) = [a]
        ∧ a.is_archived = false ∧ a.archived_at = none := by
    intro p hp
    rcases hrf1.2.2.2.2.2.2 p hp with h | h
    · cases h
    · exact h
  -- run-1 sweep postcondition: live in-district records of db1 are touched
  have hpost1 : ∀ x ∈ db1.applications, x.is_archived = false →
      app_in_district db1 d x = true → (x.student_id, x.college_id) ∈ Afin.touched := by
    intro x hx hxa hxd
    rw [hdb1app] at hx
    obtain ⟨y, hy, rfl⟩ := List.mem_map.mp hx
    rcases hgcases y hy with ⟨hgy, hnc⟩ | ⟨hgy, hya, _, _⟩
    · rw [hgy] at hxa hxd ⊢
      by_contra hnt
      exact hnc ⟨hxa, by rw [← app_in_district_congr hdb1stu rfl]; exact hxd, hnt⟩
    · rw [hgy] at hxa
      cases hxa
  -- the second sweep archives nothing
  have hsw2nil : ((Bfin.db.applications.filter
        (fun a => !a.is_archived && app_in_district Bfin.db d a)).filter
      (fun a => (a.student_id, a.college_id) ∉ Bfin.touched)) = [] := by
    rw [List.filter_eq_nil_iff]
    intro a ha
    obtain ⟨ha0, ha1⟩ := List.mem_filter.mp ha
    rw [Bool.and_eq_true, Bool.not_eq_true'] at ha1
    simp only [decide_eq_true_eq, not_not]
    rw [hTch]
    rw [hfmap] at ha0
    obtain ⟨y, hy, rfl⟩ := List.mem_map.mp ha0
    obtain ⟨hfid, hfsid, hfcid, _⟩ := hfpres y
    rw [hfsid, hfcid]
    by_cases hyt : (y.student_id, y.college_id) ∈ Afin.touched
    · exact hyt
    · have hfy : f y = y := hfold y hy hyt
      rw [hfy] at ha1
      refine hpost1 y hy ha1.1 ?_
      rw [(app_in_district_congr hBs.symm rfl :
        app_in_district db1 d y = app_in_district Bfin.db d y)]
      exact ha1.2
  have hsweep2 : archive_sweep now2 d Bfin.touched Bfin.db = (0, Bfin.db) := by
    have hcond : ¬(((Bfin.db.applications.filter
          (fun a => !a.is_archived && app_in_district Bfin.db d a)).filter
        (fun a => (a.student_id, a.college_id) ∉ Bfin.touched)).map (fun a => a.id) ≠ []) := by
      rw [hsw2nil]
      simp
    unfold archive_sweep
    rw [if_neg hcond]
  -- counts
  have hcnt : Afin.created + Afin.updated
      = (drop_duplicates_keep_last (csv.rows.map normalize_row)).length := by
    have := hrf1.2.2.2.2.2.1
    simpa using this
  -- assemble
  refine ⟨?_, ?_, ?_, ?_, ?_, ?_⟩
  · rw [hs2, hsweep2, hs1]
    simp [hCr, hUp, hcnt]
  · rw [hdb2, hsweep2]
    exact hBd
  · rw [hdb2, hsweep2]
    exact hBs
  · rw [hdb2, hsweep2]
    exact hBc
  · rw [hdb2, hsweep2]
    exact hBn
  · refine ⟨Afin.touched, ?_⟩
    rw [hdb2, hsweep2]
    show Bfin.db.applications = _
    rw [hfmap]
    refine List.map_congr_left ?_
    intro x hx
    by_cases hxt : (x.student_id, x.college_id) ∈ Afin.touched
    · rw [if_pos hxt]
      obtain ⟨a, hafil, hfx⟩ := hftch x hx hxt
      obtain ⟨a9, hafil9, ha9arch, ha9at⟩ := htchflags (x.student_id, x.college_id) hxt
      simp only at hafil9
      have ha9a : a9 = a := by
        rw [hafil9] at hafil
        exact (List.cons.inj hafil).1
      subst ha9a
      -- x is the sweep image of a9, and a9 is touched, so x = a9
      have hxa9 : x = a9 := by
        have hxin : x ∈ db1.applications.filter
            (fun y => y.student_id = x.student_id ∧ y.college_id = x.college_id) :=
          List.mem_filter.mpr ⟨hx, by simp⟩
        have hfilx : db1.applications.filter
            (fun y => y.student_id = x.student_id ∧ y.college_id = x.college_id)
            = [g a9] := by
          rw [hdb1app, filter_map_pair_preserving g
              (fun z => ⟨(hgpres z).2.1, (hgpres z).2.2.1⟩) Afin.db.applications _ _,
            hafil9, List.map_cons, List.map_nil]
        have hga9 : g a9 = a9 := by
          rcases hgcases a9 (singleton_filter_elim hafil9).1 with ⟨hg, _⟩ | ⟨_, _, _, hnt⟩
          · exact hg
          · exfalso
            have := (singleton_filter_elim hafil9).2
            simp only [decide_eq_true_eq] at this
            exact hnt (by rw [this.1, this.2]; exact hxt)
        rw [hfilx, hga9] at hxin
        simpa using hxin
      rw [hfx, ← hxa9]
      rw [CollegeApplication.mk.injEq]
      refine ⟨rfl, rfl, rfl, rfl, rfl, rfl, ?_, ?_, rfl, rfl⟩
      · rw [← hxa9] at ha9arch
        rw [ha9arch]
      · rw [← hxa9] at ha9at
        rw [ha9at]
    · rw [if_neg hxt]
      exact hfold x hx hxt

/-- C8 counterexample: importing the same one-row file twice from an empty
database, both runs succeed and the second run's summary is created=0,
updated=1, archived=0 exactly as the claim says — yet the persisted field
values are NOT all unchanged: update_or_create saves the record again, so
its auto_now column `updated_on` advances from clock 0 to clock 1. -/
theorem import_idempotent_counterexample :
    import_applications_from_csv 0 csvS DB.empty = (.ok sS1, dbS1)
  ∧ import_applications_from_csv 1 csvS dbS1 = (.ok sS2, dbS2)
  ∧ dbS2.applications ≠ dbS1.applications := by decide

/-- Witness for C8 (amended): the double import of the one-row Suffolk file. -/
theorem import_idempotent_witness :
    DB.empty.WF
  ∧ (sS2 = { total_processed := sS1.total_processed, created := 0,
             updated := sS1.total_processed, archived := 0 }
   ∧ dbS2.districts = dbS1.districts ∧ dbS2.students = dbS1.students
   ∧ dbS2.colleges = dbS1.colleges ∧ dbS2.nextId = dbS1.nextId
   ∧ ∃ T : List (Nat × Nat), dbS2.applications = dbS1.applications.map (fun a =>
       if (a.student_id, a.college_id) ∈ T then { a with updated_on := 1 } else a)) :=
  ⟨by decide,
   import_idempotent 0 1 csvS DB.empty sS1 dbS1 sS2 dbS2
     (by decide) (by decide) (by decide)⟩

end Schoolinks
